import Mathlib

/-!
Verification of azure-devops-exporter: the build and release collectors.

A shallow embedding of `metrics_latest_build.go` and `metrics_release.go`.

* A `time.Time` is its seconds since year 1 and its nanoseconds; `Sub` saturates at the
  range of a `Duration`, as in Go.

* Go `int64` identifiers are `Int`; `float64` gauge values are represented by the
  rational number they denote (rounding of float64 arithmetic is not modelled).
* A `prometheus.Labels` map literal is the list of its key/value pairs in source order.
* The callback channel is the list of commit tasks sent on it; a commit task is the
  closure's captured metric lists together with `run`, the closure body.
* Logging is not modelled.
-/

set_option autoImplicit false

namespace AzureDevopsExporter

/-! Go standard library: package time -/

/-- A Go `time.Time` without monotonic clock reading, as decoded from JSON:
seconds since January 1, year 1 00:00:00 UTC, and nanoseconds within the second. -/
structure Time where
  sec : Int
  nsec : Nat
  nsec_lt : nsec < 1000000000 := by decide
deriving DecidableEq

/-- The zero value of `time.Time` (an unset time field). -/
def Time.zero : Time := { sec := 0, nsec := 0 }

/-- Go `Time.IsZero`. -/
def Time.IsZero (t : Time) : Bool := t.sec == 0 && t.nsec == 0

/-- Go `Time.Before`. -/
def Time.Before (t u : Time) : Bool :=
  decide (t.sec < u.sec) || (t.sec == u.sec && decide (t.nsec < u.nsec))

/-- Seconds from year 1 to the Unix epoch (`unixToInternal` in Go). -/
def unixToInternal : Int := 62135596800

/-- Go `Time.Unix`: seconds since January 1, 1970 UTC. -/
def Time.Unix (t : Time) : Int := t.sec - unixToInternal

/-- A Go `time.Duration`: a signed 64-bit count of nanoseconds. -/
abbrev Duration := Int

def minDuration : Duration := -(2 ^ 63)

def maxDuration : Duration := 2 ^ 63 - 1

/-- The mathematical difference `t - u` in nanoseconds. -/
def Time.diffNs (t u : Time) : Int :=
  (t.sec - u.sec) * 1000000000 + ((t.nsec : Int) - (u.nsec : Int))

/-- Go `Time.Sub`: the duration `t - u`; when the difference does not fit a
`Duration` the minimum or maximum duration is returned. -/
def Time.Sub (t u : Time) : Duration :=
  let d := t.diffNs u
  if d < minDuration then minDuration
  else if maxDuration < d then maxDuration
  else d

/-- Go `Duration.Seconds`: whole seconds plus the remaining nanoseconds over 1e9. -/
def Duration.Seconds (d : Duration) : ℚ :=
  ((Int.tdiv d 1000000000 : Int) : ℚ) + ((Int.tmod d 1000000000 : Int) : ℚ) / 1000000000

/-! Helpers of the exporter (misc.go) -/

/-- Modelled from the spec: the digits of `int64ToString` (misc.go, outside the two
collector files), which renders an identifier in decimal (section 8: `Id:42` gives
`buildID="42"`). -/
def natToString (n : Nat) : String :=
  if n = 0 then "0" else String.mk ((Nat.digits 10 n).reverse.map Nat.digitChar)

/-- Modelled from the spec: `int64ToString` (misc.go, outside the two collector files),
the decimal rendering of a signed identifier. -/
def int64ToString (v : Int) : String :=
  if v < 0 then "-" ++ natToString (-v).toNat else natToString v.toNat

/-- Modelled from the spec: `boolToString` (misc.go, outside the two collector files)
renders a boolean as `true` or `false` (spec section 8: `isAutomated="false"`). -/
def boolToString (v : Bool) : String :=
  if v then "true" else "false"

/-- The conversion `timeToFloat64` used by `AddTime`: the Unix time in seconds. -/
def timeToFloat64 (v : Time) : ℚ := ((v.Unix : Int) : ℚ)

/-! Label maps, MetricList and GaugeVec -/

/-- A `prometheus.Labels` map literal: label name / label value pairs. -/
abbrev Labels := List (String × String)

/-- The label names of a label map. -/
def labelNames (l : Labels) : List String := l.map Prod.fst

structure MetricRow where
  labels : Labels
  value : ℚ
deriving DecidableEq

/-- The per-cycle buffer `prometheusCommon.MetricList`. It belongs to the library
`github.com/webdevops/go-common/prometheus` that both collectors use; its methods are
outside the two collector files, so each one below says where its behaviour is taken from. -/
structure MetricList where
  list : List MetricRow
deriving DecidableEq

def NewMetricsList : MetricList := ⟨[]⟩

/-- Modelled from the spec: `MetricList.AddInfo` (metric list library, outside the two
collector files). Section 4.1, FlattenInfo: an observation with value 1; section 4.2,
Add: appends. -/
def MetricList.AddInfo (m : MetricList) (labels : Labels) : MetricList :=
  ⟨m.list ++ [⟨labels, 1⟩]⟩

/-- Modelled from the spec: `MetricList.AddTime` (metric list library, outside the two
collector files). Section 4.1, FlattenTimestamp: the value is the seconds since epoch of
the field and an unset field emits nothing. As the library does, a row is appended
exactly when the Unix time is above zero; the unset time has Unix time -62135596800. -/
def MetricList.AddTime (m : MetricList) (labels : Labels) (value : Time) : MetricList :=
  let timeValue := timeToFloat64 value
  if timeValue > 0 then ⟨m.list ++ [⟨labels, timeValue⟩]⟩ else m

/-- `MetricList.AddDuration` (metric list library, outside the two collector files):
appends the duration in seconds, as the library does. Section 4.1 of the spec, FlattenDuration, gives
the same value; its condition on the two ends is not something this method can decide,
since the collector passes it the computed duration only. -/
def MetricList.AddDuration (m : MetricList) (labels : Labels) (value : Duration) : MetricList :=
  ⟨m.list ++ [⟨labels, Duration.Seconds value⟩]⟩

/-- Modelled from the spec: `MetricList.AddIfNotZero` (metric list library, outside the
two collector files). Section 4.1, FlattenConditionalNumeric: the value is skipped when it
is zero. -/
def MetricList.AddIfNotZero (m : MetricList) (labels : Labels) (value : ℚ) : MetricList :=
  if value ≠ 0 then ⟨m.list ++ [⟨labels, value⟩]⟩ else m

/-- Modelled from the spec: `MetricList.AddBool` (metric list library, outside the
two collector files). Section 4.1, FlattenBoolean: an observation with value 0 or 1. -/
def MetricList.AddBool (m : MetricList) (labels : Labels) (state : Bool) : MetricList :=
  ⟨m.list ++ [⟨labels, if state then 1 else 0⟩]⟩

/-- A `prometheus.GaugeVec` of the Prometheus client library: the label names it was
created with and its series, each keyed by the label values in the order of
`variableLabels`. -/
structure GaugeVec where
  name : String
  variableLabels : List String
  metrics : List (List String × ℚ)
deriving DecidableEq

/-- `prometheus.NewGaugeVec`: a family without series. -/
def NewGaugeVec (name : String) (labelNames : List String) : GaugeVec :=
  ⟨name, labelNames, []⟩

/-- `GaugeVec.Reset`: deletes every series of the family. -/
def GaugeVec.Reset (g : GaugeVec) : GaugeVec :=
  { g with metrics := [] }

/-- The value of every name of the list, in order; `none` when one is missing. -/
def lookupAll (labels : Labels) : List String → Option (List String)
  | [] => some []
  | n :: ns =>
    match labels.lookup n, lookupAll labels ns with
    | some v, some vs => some (v :: vs)
    | _, _ => none

/-- The series key of a label map: the value of every declared label, in declared
order. `none` (a panic of `With`) when the number of labels differs from the
declaration or a declared label is missing. -/
def GaugeVec.labelValues (g : GaugeVec) (labels : Labels) : Option (List String) :=
  if labels.length ≠ g.variableLabels.length then none
  else lookupAll labels g.variableLabels

/-- Sets the series `key` to `v`, creating it when absent. -/
def setSeries (key : List String) (v : ℚ) : List (List String × ℚ) → List (List String × ℚ)
  | [] => [(key, v)]
  | (k, w) :: rest => if k = key then (key, v) :: rest else (k, w) :: setSeries key v rest

/-- The statement `gauge.With(labels).Set(value)`; `none` when `With` panics. -/
def GaugeVec.WithSet (g : GaugeVec) (labels : Labels) (value : ℚ) : Option GaugeVec :=
  match g.labelValues labels with
  | none => none
  | some key => some { g with metrics := setSeries key value g.metrics }

/-- `MetricList.GaugeSet` (metric list library, outside the two collector files): for every buffered
row, `gauge.With(row.labels).Set(row.value)`. It deletes nothing: the gauges are shared by
the tasks of all projects of a cycle, and deleting is what `Reset` is for. -/
def MetricList.GaugeSet (m : MetricList) (gauge : GaugeVec) : Option GaugeVec :=
  m.list.foldlM (fun g row => g.WithSet row.labels row.value) gauge

/-- The value of the series with the given key, if the family holds one. -/
def GaugeVec.series (g : GaugeVec) (key : List String) : Option ℚ :=
  g.metrics.lookup key

/-- The value a series key carries for a label name of the family. -/
def GaugeVec.labelOf (g : GaugeVec) (key : List String) (name : String) : Option String :=
  (g.variableLabels.zip key).lookup name

/-! API client records (azure-devops-client): the fields read by the collectors -/

structure Project where
  Id : String
  Name : String
deriving DecidableEq

structure Link where
  Href : String
deriving DecidableEq

structure Links where
  Web : Link
deriving DecidableEq

structure IdentifyRef where
  DisplayName : String
deriving DecidableEq

structure BuildDefinitionRef where
  Id : Int
  Name : String
deriving DecidableEq

structure AgentPool where
  Id : Int
deriving DecidableEq

structure AgentQueue where
  Pool : AgentPool
deriving DecidableEq

structure Build where
  Id : Int
  BuildNumber : String
  Definition : BuildDefinitionRef
  Queue : AgentQueue
  RequestedBy : IdentifyRef
  SourceBranch : String
  SourceVersion : String
  Status : String
  Reason : String
  Result : String
  Links : Links
  StartTime : Time
  QueueTime : Time
  FinishTime : Time
deriving DecidableEq

structure BuildList where
  List : List Build
deriving DecidableEq

structure ReleaseRef where
  Id : Int
deriving DecidableEq

structure ReleaseDefinitionEnvironment where
  Id : Int
  Name : String
  Rank : Int
  Owner : IdentifyRef
  CurrentRelease : ReleaseRef
  BadgeUrl : String
deriving DecidableEq

structure ReleaseDefinition where
  Id : Int
  Name : String
  Path : String
  ReleaseNameFormat : String
  Environments : List ReleaseDefinitionEnvironment
  Links : Links
deriving DecidableEq

structure ReleaseDefinitionList where
  List : List ReleaseDefinition
deriving DecidableEq

structure NamedRef where
  Name : String
deriving DecidableEq

structure ArtifactDefinitionReference where
  Repository : NamedRef
  Branch : NamedRef
  Version : NamedRef
deriving DecidableEq

structure ReleaseArtifact where
  SourceId : String
  ArtifactType : String
  Alias : String
  DefinitionReference : ArtifactDefinitionReference
deriving DecidableEq

structure ReleaseEnvironmentApproval where
  ApprovalType : String
  Status : String
  IsAutomated : Bool
  TrialNumber : Int
  Attempt : Int
  Rank : Int
  Approver : IdentifyRef
  ApprovedBy : IdentifyRef
  CreatedOn : Time
deriving DecidableEq

structure ReleaseEnvironment where
  DefinitionEnvironmentId : Int
  Name : String
  Status : String
  TriggerReason : String
  Rank : Int
  CreatedOn : Time
  TimeToDeploy : ℚ
  PreDeployApprovals : List ReleaseEnvironmentApproval
  PostDeployApprovals : List ReleaseEnvironmentApproval
deriving DecidableEq

structure ReleaseDefinitionRef where
  Id : Int
deriving DecidableEq

structure Release where
  Id : Int
  Name : String
  Definition : ReleaseDefinitionRef
  RequestedBy : IdentifyRef
  Status : String
  Reason : String
  Result : Bool
  Links : Links
  Artifacts : List ReleaseArtifact
  Environments : List ReleaseEnvironment
deriving DecidableEq

structure ReleaseList where
  List : List Release
deriving DecidableEq

/-- The API client `AzureDevopsClient`: every call returns a list or an error. -/
structure Client where
  ListLatestBuilds : String → Except String BuildList
  ListReleaseDefinitions : String → Except String ReleaseDefinitionList
  ListReleaseHistory : String → Time → Except String ReleaseList

/-- Go `Time.Add` for a time without monotonic reading. -/
def Time.Add (t : Time) (d : Duration) : Time :=
  let dsec := Int.tdiv d 1000000000
  let nsec := (t.nsec : Int) + Int.tmod d 1000000000
  if h1 : nsec ≥ 1000000000 then
    { sec := t.sec + dsec + 1, nsec := (nsec - 1000000000).toNat % 1000000000,
      nsec_lt := Nat.mod_lt _ (by decide) }
  else if h2 : nsec < 0 then
    { sec := t.sec + dsec - 1, nsec := (nsec + 1000000000).toNat % 1000000000,
      nsec_lt := Nat.mod_lt _ (by decide) }
  else
    { sec := t.sec + dsec, nsec := nsec.toNat, nsec_lt := by omega }

/-! The build collector (metrics_latest_build.go) -/

structure BuildGauges where
  build : GaugeVec
  buildStatus : GaugeVec
deriving DecidableEq

structure MetricsCollectorLatestBuild where
  prometheus : BuildGauges
deriving DecidableEq

/-- The label names `azure_devops_build_latest_info` is created with in Setup. -/
def buildLabelNames : List String :=
  [ "projectID", "projectName", "buildDefinitionID", "buildID", "agentPoolID",
    "requestedBy", "buildNumber", "buildName", "sourceBranch", "sourceVersion",
    "status", "reason", "result", "url" ]

/-- The label names `azure_devops_build_latest_status` is created with in Setup. -/
def buildStatusLabelNames : List String :=
  [ "projectID", "projectName", "buildID", "buildNumber", "type" ]

/-- `MetricsCollectorLatestBuild.Setup`. -/
def MetricsCollectorLatestBuild.Setup : MetricsCollectorLatestBuild :=
  { prometheus :=
      { build := NewGaugeVec "azure_devops_build_latest_info" buildLabelNames
        buildStatus := NewGaugeVec "azure_devops_build_latest_status" buildStatusLabelNames } }

/-- `MetricsCollectorLatestBuild.Reset`. -/
def MetricsCollectorLatestBuild.Reset (m : MetricsCollectorLatestBuild) :
    MetricsCollectorLatestBuild :=
  { prometheus :=
      { build := m.prometheus.build.Reset
        buildStatus := m.prometheus.buildStatus.Reset } }

/-- The label map of the `AddInfo` call of the build loop. -/
def buildInfoLabels (project : Project) (build : Build) : Labels :=
  [ ("projectID", project.Id),
    ("projectName", project.Name),
    ("buildDefinitionID", int64ToString build.Definition.Id),
    ("buildID", int64ToString build.Id),
    ("buildNumber", build.BuildNumber),
    ("buildName", build.Definition.Name),
    ("agentPoolID", int64ToString build.Queue.Pool.Id),
    ("requestedBy", build.RequestedBy.DisplayName),
    ("sourceBranch", build.SourceBranch),
    ("sourceVersion", build.SourceVersion),
    ("status", build.Status),
    ("reason", build.Reason),
    ("result", build.Result),
    ("url", build.Links.Web.Href) ]

/-- The label map of the build status calls, for the given `type` label. -/
def buildStatusLabels (project : Project) (build : Build) (type : String) : Labels :=
  [ ("projectID", project.Id),
    ("projectName", project.Name),
    ("buildID", int64ToString build.Id),
    ("buildNumber", build.BuildNumber),
    ("type", type) ]

/-- The two metric lists a build cycle fills, captured by its commit task. -/
structure BuildCallback where
  buildMetric : MetricList
  buildStatusMetric : MetricList
deriving DecidableEq

/-- The body of `for _, build := range list.List`. -/
def collectBuild (project : Project) (s : BuildCallback) (build : Build) : BuildCallback :=
  let buildMetric := s.buildMetric.AddInfo (buildInfoLabels project build)
  let buildStatusMetric :=
    s.buildStatusMetric.AddTime (buildStatusLabels project build "started") build.StartTime
  let buildStatusMetric :=
    buildStatusMetric.AddTime (buildStatusLabels project build "queued") build.QueueTime
  let buildStatusMetric :=
    buildStatusMetric.AddTime (buildStatusLabels project build "finished") build.FinishTime
  let buildStatusMetric :=
    buildStatusMetric.AddDuration (buildStatusLabels project build "jobDuration")
      (build.FinishTime.Sub build.StartTime)
  ⟨buildMetric, buildStatusMetric⟩

/-- The closure sent on the callback channel: both lists are written to the gauges. -/
def BuildCallback.run (c : BuildCallback) (m : MetricsCollectorLatestBuild) :
    Option MetricsCollectorLatestBuild :=
  match c.buildMetric.GaugeSet m.prometheus.build with
  | none => none
  | some build =>
    match c.buildStatusMetric.GaugeSet m.prometheus.buildStatus with
    | none => none
    | some buildStatus => some { prometheus := { build := build, buildStatus := buildStatus } }

/-- `MetricsCollectorLatestBuild.Collect`: the collector and the callback channel
before the call give the collector and the channel after it. -/
def MetricsCollectorLatestBuild.Collect (m : MetricsCollectorLatestBuild) (client : Client)
    (callback : List BuildCallback) (project : Project) :
    MetricsCollectorLatestBuild × List BuildCallback :=
  match client.ListLatestBuilds project.Id with
  | .error _ => (m, callback)
  | .ok list =>
    let s := list.List.foldl (collectBuild project) ⟨NewMetricsList, NewMetricsList⟩
    (m, callback ++ [s])

/-! The release collector (metrics_release.go) -/

structure ReleaseGauges where
  release : GaugeVec
  releaseArtifact : GaugeVec
  releaseEnvironment : GaugeVec
  releaseEnvironmentApproval : GaugeVec
  releaseEnvironmentStatus : GaugeVec
  releaseDefinition : GaugeVec
  releaseDefinitionEnvironment : GaugeVec
deriving DecidableEq

structure MetricsCollectorRelease where
  prometheus : ReleaseGauges
deriving DecidableEq

def releaseLabelNames : List String :=
  [ "projectID", "projectName", "releaseID", "releaseDefinitionID", "requestedBy",
    "releaseName", "status", "reason", "result", "url" ]

def releaseArtifactLabelNames : List String :=
  [ "projectID", "projectName", "releaseID", "releaseDefinitionID", "sourceId",
    "repositoryID", "branch", "type", "alias", "version" ]

def releaseEnvironmentLabelNames : List String :=
  [ "projectID", "projectName", "releaseID", "releaseDefinitionID", "environmentID",
    "environmentName", "status", "triggerReason", "rank" ]

def releaseEnvironmentStatusLabelNames : List String :=
  [ "projectID", "projectName", "releaseID", "releaseDefinitionID", "environmentID", "type" ]

def releaseEnvironmentApprovalLabelNames : List String :=
  [ "projectID", "projectName", "releaseID", "releaseDefinitionID", "environmentID",
    "approvalType", "status", "isAutomated", "trialNumber", "attempt", "rank",
    "approver", "approvedBy" ]

def releaseDefinitionLabelNames : List String :=
  [ "projectID", "projectName", "releaseDefinitionID", "releaseNameFormat",
    "releaseDefinitionName", "path", "url" ]

def releaseDefinitionEnvironmentLabelNames : List String :=
  [ "projectID", "projectName", "releaseDefinitionID", "environmentID", "environmentName",
    "rank", "owner", "releaseID", "badgeUrl" ]

/-- `MetricsCollectorRelease.Setup`. -/
def MetricsCollectorRelease.Setup : MetricsCollectorRelease :=
  { prometheus :=
      { release := NewGaugeVec "azure_devops_release_info" releaseLabelNames
        releaseArtifact := NewGaugeVec "azure_devops_release_artifact" releaseArtifactLabelNames
        releaseEnvironment :=
          NewGaugeVec "azure_devops_release_environment" releaseEnvironmentLabelNames
        releaseEnvironmentStatus :=
          NewGaugeVec "azure_devops_release_environment_status" releaseEnvironmentStatusLabelNames
        releaseEnvironmentApproval :=
          NewGaugeVec "azure_devops_release_approval" releaseEnvironmentApprovalLabelNames
        releaseDefinition :=
          NewGaugeVec "azure_devops_release_definition_info" releaseDefinitionLabelNames
        releaseDefinitionEnvironment :=
          NewGaugeVec "azure_devops_release_definition_environment"
            releaseDefinitionEnvironmentLabelNames } }

/-- `MetricsCollectorRelease.Reset`. -/
def MetricsCollectorRelease.Reset (m : MetricsCollectorRelease) : MetricsCollectorRelease :=
  { prometheus :=
      { release := m.prometheus.release.Reset
        releaseArtifact := m.prometheus.releaseArtifact.Reset
        releaseEnvironment := m.prometheus.releaseEnvironment.Reset
        releaseEnvironmentApproval := m.prometheus.releaseEnvironmentApproval.Reset
        releaseEnvironmentStatus := m.prometheus.releaseEnvironmentStatus.Reset
        releaseDefinition := m.prometheus.releaseDefinition.Reset
        releaseDefinitionEnvironment := m.prometheus.releaseDefinitionEnvironment.Reset } }

def releaseDefinitionLabels (project : Project) (releaseDefinition : ReleaseDefinition) :
    Labels :=
  [ ("projectID", project.Id),
    ("projectName", project.Name),
    ("releaseDefinitionID", int64ToString releaseDefinition.Id),
    ("releaseNameFormat", releaseDefinition.ReleaseNameFormat),
    ("releaseDefinitionName", releaseDefinition.Name),
    ("path", releaseDefinition.Path),
    ("url", releaseDefinition.Links.Web.Href) ]

def releaseDefinitionEnvironmentLabels (project : Project)
    (releaseDefinition : ReleaseDefinition) (environment : ReleaseDefinitionEnvironment) :
    Labels :=
  [ ("projectID", project.Id),
    ("projectName", project.Name),
    ("releaseDefinitionID", int64ToString releaseDefinition.Id),
    ("environmentID", int64ToString environment.Id),
    ("environmentName", environment.Name),
    ("rank", int64ToString environment.Rank),
    ("owner", environment.Owner.DisplayName),
    ("releaseID", int64ToString environment.CurrentRelease.Id),
    ("badgeUrl", environment.BadgeUrl) ]

def releaseLabels (project : Project) (release : Release) : Labels :=
  [ ("projectID", project.Id),
    ("projectName", project.Name),
    ("releaseID", int64ToString release.Id),
    ("releaseDefinitionID", int64ToString release.Definition.Id),
    ("requestedBy", release.RequestedBy.DisplayName),
    ("releaseName", release.Name),
    ("status", release.Status),
    ("reason", release.Reason),
    ("result", boolToString release.Result),
    ("url", release.Links.Web.Href) ]

def releaseArtifactLabels (project : Project) (release : Release) (artifact : ReleaseArtifact) :
    Labels :=
  [ ("projectID", project.Id),
    ("projectName", project.Name),
    ("releaseID", int64ToString release.Id),
    ("releaseDefinitionID", int64ToString release.Definition.Id),
    ("sourceId", artifact.SourceId),
    ("repositoryID", artifact.DefinitionReference.Repository.Name),
    ("branch", artifact.DefinitionReference.Branch.Name),
    ("type", artifact.ArtifactType),
    ("alias", artifact.Alias),
    ("version", artifact.DefinitionReference.Version.Name) ]

def releaseEnvironmentLabels (project : Project) (release : Release)
    (environment : ReleaseEnvironment) : Labels :=
  [ ("projectID", project.Id),
    ("projectName", project.Name),
    ("releaseID", int64ToString release.Id),
    ("releaseDefinitionID", int64ToString release.Definition.Id),
    ("environmentID", int64ToString environment.DefinitionEnvironmentId),
    ("environmentName", environment.Name),
    ("status", environment.Status),
    ("triggerReason", environment.TriggerReason),
    ("rank", int64ToString environment.Rank) ]

/-- The label map of the release environment status calls, for the given `type` label. -/
def releaseEnvironmentStatusLabels (project : Project) (release : Release)
    (environment : ReleaseEnvironment) (type : String) : Labels :=
  [ ("projectID", project.Id),
    ("projectName", project.Name),
    ("releaseID", int64ToString release.Id),
    ("releaseDefinitionID", int64ToString release.Definition.Id),
    ("environmentID", int64ToString environment.DefinitionEnvironmentId),
    ("type", type) ]

/-- The label map of the approval calls (the same literal in both approval loops). -/
def releaseApprovalLabels (project : Project) (release : Release)
    (environment : ReleaseEnvironment) (approval : ReleaseEnvironmentApproval) : Labels :=
  [ ("projectID", project.Id),
    ("projectName", project.Name),
    ("releaseID", int64ToString release.Id),
    ("releaseDefinitionID", int64ToString release.Definition.Id),
    ("environmentID", int64ToString environment.DefinitionEnvironmentId),
    ("approvalType", approval.ApprovalType),
    ("status", approval.Status),
    ("isAutomated", boolToString approval.IsAutomated),
    ("trialNumber", int64ToString approval.TrialNumber),
    ("attempt", int64ToString approval.Attempt),
    ("rank", int64ToString approval.Rank),
    ("approver", approval.Approver.DisplayName),
    ("approvedBy", approval.ApprovedBy.DisplayName) ]

/-- The seven metric lists a release cycle fills, captured by its commit task. -/
structure ReleaseCallback where
  releaseDefinitionMetric : MetricList
  releaseDefinitionEnvironmentMetric : MetricList
  releaseMetric : MetricList
  releaseArtifactMetric : MetricList
  releaseEnvironmentMetric : MetricList
  releaseEnvironmentApprovalMetric : MetricList
  releaseEnvironmentStatusMetric : MetricList
deriving DecidableEq

/-- The body of the loop over `releaseDefinition.Environments`. -/
def collectDefinitionEnvironment (project : Project) (releaseDefinition : ReleaseDefinition)
    (releaseDefinitionEnvironmentMetric : MetricList)
    (environment : ReleaseDefinitionEnvironment) : MetricList :=
  releaseDefinitionEnvironmentMetric.AddInfo
    (releaseDefinitionEnvironmentLabels project releaseDefinition environment)

/-- The body of `for _, releaseDefinition := range list.List`. -/
def collectReleaseDefinition (project : Project) (s : ReleaseCallback)
    (releaseDefinition : ReleaseDefinition) : ReleaseCallback :=
  let releaseDefinitionMetric :=
    s.releaseDefinitionMetric.AddInfo (releaseDefinitionLabels project releaseDefinition)
  let releaseDefinitionEnvironmentMetric :=
    releaseDefinition.Environments.foldl (collectDefinitionEnvironment project releaseDefinition)
      s.releaseDefinitionEnvironmentMetric
  { s with
    releaseDefinitionMetric := releaseDefinitionMetric
    releaseDefinitionEnvironmentMetric := releaseDefinitionEnvironmentMetric }

/-- The body of the loop over `release.Artifacts`. -/
def collectArtifact (project : Project) (release : Release) (releaseArtifactMetric : MetricList)
    (artifact : ReleaseArtifact) : MetricList :=
  releaseArtifactMetric.AddInfo (releaseArtifactLabels project release artifact)

/-- The body of both approval loops (`PreDeployApprovals` and `PostDeployApprovals`
have the same body): automated approvals are skipped. -/
def collectApproval (project : Project) (release : Release) (environment : ReleaseEnvironment)
    (releaseEnvironmentApprovalMetric : MetricList) (approval : ReleaseEnvironmentApproval) :
    MetricList :=
  if approval.IsAutomated then releaseEnvironmentApprovalMetric
  else
    releaseEnvironmentApprovalMetric.AddTime
      (releaseApprovalLabels project release environment approval) approval.CreatedOn

/-- The body of the loop over `release.Environments`. -/
def collectEnvironment (project : Project) (release : Release) (s : ReleaseCallback)
    (environment : ReleaseEnvironment) : ReleaseCallback :=
  let releaseEnvironmentMetric :=
    s.releaseEnvironmentMetric.AddInfo (releaseEnvironmentLabels project release environment)
  let releaseEnvironmentStatusMetric :=
    s.releaseEnvironmentStatusMetric.AddBool
      (releaseEnvironmentStatusLabels project release environment "succeeded")
      (environment.Status == "succeeded")
  let releaseEnvironmentStatusMetric :=
    releaseEnvironmentStatusMetric.AddTime
      (releaseEnvironmentStatusLabels project release environment "created")
      environment.CreatedOn
  let releaseEnvironmentStatusMetric :=
    releaseEnvironmentStatusMetric.AddIfNotZero
      (releaseEnvironmentStatusLabels project release environment "jobDuration")
      (environment.TimeToDeploy * 60)
  let releaseEnvironmentApprovalMetric :=
    environment.PreDeployApprovals.foldl (collectApproval project release environment)
      s.releaseEnvironmentApprovalMetric
  let releaseEnvironmentApprovalMetric :=
    environment.PostDeployApprovals.foldl (collectApproval project release environment)
      releaseEnvironmentApprovalMetric
  { s with
    releaseEnvironmentMetric := releaseEnvironmentMetric
    releaseEnvironmentStatusMetric := releaseEnvironmentStatusMetric
    releaseEnvironmentApprovalMetric := releaseEnvironmentApprovalMetric }

/-- The body of `for _, release := range releaseList.List`. -/
def collectRelease (project : Project) (s : ReleaseCallback) (release : Release) :
    ReleaseCallback :=
  let releaseMetric := s.releaseMetric.AddInfo (releaseLabels project release)
  let releaseArtifactMetric :=
    release.Artifacts.foldl (collectArtifact project release) s.releaseArtifactMetric
  release.Environments.foldl (collectEnvironment project release)
    { s with releaseMetric := releaseMetric, releaseArtifactMetric := releaseArtifactMetric }

/-- The closure sent on the callback channel: the seven lists are written to their
gauges, in the order of the source. -/
def ReleaseCallback.run (c : ReleaseCallback) (m : MetricsCollectorRelease) :
    Option MetricsCollectorRelease := do
  let releaseDefinition ← c.releaseDefinitionMetric.GaugeSet m.prometheus.releaseDefinition
  let releaseDefinitionEnvironment ←
    c.releaseDefinitionEnvironmentMetric.GaugeSet m.prometheus.releaseDefinitionEnvironment
  let release ← c.releaseMetric.GaugeSet m.prometheus.release
  let releaseArtifact ← c.releaseArtifactMetric.GaugeSet m.prometheus.releaseArtifact
  let releaseEnvironment ← c.releaseEnvironmentMetric.GaugeSet m.prometheus.releaseEnvironment
  let releaseEnvironmentApproval ←
    c.releaseEnvironmentApprovalMetric.GaugeSet m.prometheus.releaseEnvironmentApproval
  let releaseEnvironmentStatus ←
    c.releaseEnvironmentStatusMetric.GaugeSet m.prometheus.releaseEnvironmentStatus
  pure
    { prometheus :=
        { release := release
          releaseArtifact := releaseArtifact
          releaseEnvironment := releaseEnvironment
          releaseEnvironmentApproval := releaseEnvironmentApproval
          releaseEnvironmentStatus := releaseEnvironmentStatus
          releaseDefinition := releaseDefinition
          releaseDefinitionEnvironment := releaseDefinitionEnvironment } }

/-- The options read by the release collector (`opts.Limit.ReleaseHistoryDuration`). -/
structure Opts where
  ReleaseHistoryDuration : Duration

/-- `MetricsCollectorRelease.Collect`; `now` is the reading of `time.Now()`. The
collector and the callback channel before the call give those after it. -/
def MetricsCollectorRelease.Collect (m : MetricsCollectorRelease) (client : Client)
    (opts : Opts) (now : Time) (callback : List ReleaseCallback) (project : Project) :
    MetricsCollectorRelease × List ReleaseCallback :=
  match client.ListReleaseDefinitions project.Id with
  | .error _ => (m, callback)
  | .ok list =>
    let s : ReleaseCallback :=
      ⟨NewMetricsList, NewMetricsList, NewMetricsList, NewMetricsList, NewMetricsList,
        NewMetricsList, NewMetricsList⟩
    let s := list.List.foldl (collectReleaseDefinition project) s
    let minTime := now.Add (-opts.ReleaseHistoryDuration)
    match client.ListReleaseHistory project.Id minTime with
    | .error _ => (m, callback)
    | .ok releaseList =>
      let s := releaseList.List.foldl (collectRelease project) s
      (m, callback ++ [s])

/-! Notions used to state the properties -/

/-- The value of a label of a buffered row. -/
def MetricRow.label (r : MetricRow) (name : String) : Option String :=
  r.labels.lookup name

/-- Whether a buffered row carries the given `type` label. -/
def typeIs (t : String) (r : MetricRow) : Bool :=
  r.labels.lookup "type" == some t

/-- The rows `AddTime` appends. -/
def timeRows (labels : Labels) (value : Time) : List MetricRow :=
  if timeToFloat64 value > 0 then [⟨labels, timeToFloat64 value⟩] else []

/-- The rows `AddIfNotZero` appends. -/
def notZeroRows (labels : Labels) (value : ℚ) : List MetricRow :=
  if value ≠ 0 then [⟨labels, value⟩] else []

/-- The build status rows one iteration of the build loop appends. -/
def buildStatusRows (project : Project) (build : Build) : List MetricRow :=
  timeRows (buildStatusLabels project build "started") build.StartTime ++
  timeRows (buildStatusLabels project build "queued") build.QueueTime ++
  timeRows (buildStatusLabels project build "finished") build.FinishTime ++
  [⟨buildStatusLabels project build "jobDuration",
    Duration.Seconds (build.FinishTime.Sub build.StartTime)⟩]

/-- The approval rows one iteration of an approval loop appends. -/
def approvalRows (project : Project) (release : Release) (environment : ReleaseEnvironment)
    (approval : ReleaseEnvironmentApproval) : List MetricRow :=
  if approval.IsAutomated then []
  else timeRows (releaseApprovalLabels project release environment approval) approval.CreatedOn

/-- The approval rows one iteration of the environment loop appends. -/
def environmentApprovalRows (project : Project) (release : Release)
    (environment : ReleaseEnvironment) : List MetricRow :=
  environment.PreDeployApprovals.flatMap (approvalRows project release environment) ++
  environment.PostDeployApprovals.flatMap (approvalRows project release environment)

/-- The environment status rows one iteration of the environment loop appends. -/
def environmentStatusRows (project : Project) (release : Release)
    (environment : ReleaseEnvironment) : List MetricRow :=
  [⟨releaseEnvironmentStatusLabels project release environment "succeeded",
    if environment.Status == "succeeded" then 1 else 0⟩] ++
  timeRows (releaseEnvironmentStatusLabels project release environment "created")
    environment.CreatedOn ++
  notZeroRows (releaseEnvironmentStatusLabels project release environment "jobDuration")
    (environment.TimeToDeploy * 60)

/-- The metric lists before the first loop of Collect. -/
def emptyReleaseCallback : ReleaseCallback :=
  ⟨NewMetricsList, NewMetricsList, NewMetricsList, NewMetricsList, NewMetricsList,
    NewMetricsList, NewMetricsList⟩

/-- The label names of the two build families, as the collector holds them. -/
def BuildGauges.schema (g : BuildGauges) : List (List String) :=
  [g.build.variableLabels, g.buildStatus.variableLabels]

/-- The label names of the seven release families, as the collector holds them. -/
def ReleaseGauges.schema (g : ReleaseGauges) : List (List String) :=
  [g.release.variableLabels, g.releaseArtifact.variableLabels,
    g.releaseEnvironment.variableLabels, g.releaseEnvironmentApproval.variableLabels,
    g.releaseEnvironmentStatus.variableLabels, g.releaseDefinition.variableLabels,
    g.releaseDefinitionEnvironment.variableLabels]

/-- Every row of the list has exactly the label names `names` (in some order). -/
def MetricList.hasLabelNames (m : MetricList) (names : List String) : Prop :=
  ∀ r ∈ m.list, (labelNames r.labels).Perm names

/-- Modelled from the spec: the committer that drains the callback channel is in
collector_project.go, outside the two collector files. Section 4.2: Commit
"removes every previously registered series for family, then installs exactly one series
per buffered Observation for that family". It is Reset followed by the commit task. -/
def MetricsCollectorLatestBuild.commit (m : MetricsCollectorLatestBuild)
    (task : BuildCallback) : Option MetricsCollectorLatestBuild :=
  task.run m.Reset

/-- Modelled from the spec: one cycle of the build collector for one project (the driver
is in collector_project.go, outside the two collector files): Collect on an empty callback
channel, then every task sent on it is committed, in arrival order. -/
def MetricsCollectorLatestBuild.cycle (m : MetricsCollectorLatestBuild) (client : Client)
    (project : Project) : Option MetricsCollectorLatestBuild :=
  (m.Collect client [] project).2.foldlM (fun reg task => reg.commit task)
    (m.Collect client [] project).1

/-- The series keys a family holds. -/
def GaugeVec.keys (g : GaugeVec) : List (List String) :=
  g.metrics.map Prod.fst

/-! Concrete inputs -/

def exProject : Project := ⟨"p1", "demo"⟩

/-- The start time of the example build: 2024-01-01 00:00:00 UTC. -/
def exT0 : Time := { sec := 63839664000, nsec := 0 }

/-- The build of the scenario in section 8 of the specification. -/
def exBuild : Build :=
  { Id := 42, BuildNumber := "20240101.1", Definition := ⟨7, "ci"⟩, Queue := ⟨⟨1⟩⟩,
    RequestedBy := ⟨"dev"⟩, SourceBranch := "refs/heads/main", SourceVersion := "abc",
    Status := "completed", Reason := "manual", Result := "succeeded",
    Links := ⟨⟨"https://dev.example/build/42"⟩⟩,
    StartTime := exT0, QueueTime := { sec := 63839663990, nsec := 0 },
    FinishTime := { sec := 63839664300, nsec := 0 } }

/-- A build that is still running: its finish time is unset. -/
def exRunningBuild : Build :=
  { exBuild with Id := 43, Status := "inProgress", Result := "", FinishTime := Time.zero }

/-- A build that is queued: neither start nor finish time is set. -/
def exQueuedBuild : Build :=
  { exBuild with
    Id := 44
    Status := "notStarted"
    Result := ""
    StartTime := Time.zero
    FinishTime := Time.zero }

/-- A client whose calls all succeed with the given lists. -/
def clientOf (builds : List Build) (definitions : List ReleaseDefinition)
    (releases : List Release) : Client :=
  { ListLatestBuilds := fun _ => .ok ⟨builds⟩
    ListReleaseDefinitions := fun _ => .ok ⟨definitions⟩
    ListReleaseHistory := fun _ _ => .ok ⟨releases⟩ }

/-- A pre-deploy approval given by a person. -/
def exApproval : ReleaseEnvironmentApproval :=
  { ApprovalType := "preDeploy", Status := "approved", IsAutomated := false, TrialNumber := 1,
    Attempt := 1, Rank := 1, Approver := ⟨"lead"⟩, ApprovedBy := ⟨"lead"⟩, CreatedOn := exT0 }

/-- An automated approval. -/
def exAutomatedApproval : ReleaseEnvironmentApproval :=
  { exApproval with IsAutomated := true }

/-- An approval by a person whose creation time is unset. -/
def exUndatedApproval : ReleaseEnvironmentApproval :=
  { exApproval with CreatedOn := Time.zero }

/-- A release environment that was never created nor deployed. -/
def exEnvironment : ReleaseEnvironment :=
  { DefinitionEnvironmentId := 5, Name := "prod", Status := "notStarted",
    TriggerReason := "manual", Rank := 1, CreatedOn := Time.zero, TimeToDeploy := 0,
    PreDeployApprovals := [exApproval, exAutomatedApproval],
    PostDeployApprovals := [exAutomatedApproval] }

def exRelease : Release :=
  { Id := 9, Name := "Release-9", Definition := ⟨3⟩, RequestedBy := ⟨"dev"⟩,
    Status := "active", Reason := "manual", Result := false,
    Links := ⟨⟨"https://dev.example/release/9"⟩⟩, Artifacts := [],
    Environments := [exEnvironment] }

/-- A release whose only approval is by a person and has no creation time. -/
def exUndatedRelease : Release :=
  { exRelease with
    Environments := [{ exEnvironment with
      PreDeployApprovals := [exUndatedApproval]
      PostDeployApprovals := [] }] }

def exDefinition : ReleaseDefinition :=
  { Id := 3, Name := "deploy", Path := "/", ReleaseNameFormat := "Release-$(rev:r)",
    Environments := [⟨5, "prod", 1, ⟨"lead"⟩, ⟨9⟩, "https://dev.example/badge/5"⟩],
    Links := ⟨⟨"https://dev.example/definition/3"⟩⟩ }

def exOpts : Opts := ⟨86400000000000⟩

/-- A client whose calls all fail. -/
def failingClient : Client :=
  { ListLatestBuilds := fun _ => .error "timeout"
    ListReleaseDefinitions := fun _ => .error "timeout"
    ListReleaseHistory := fun _ _ => .error "timeout" }

/-- A client that returns the release definitions and then fails on the release history. -/
def historyFailingClient : Client :=
  { ListLatestBuilds := fun _ => .ok ⟨[]⟩
    ListReleaseDefinitions := fun _ => .ok ⟨[exDefinition]⟩
    ListReleaseHistory := fun _ _ => .error "timeout" }

/-! General facts about loops that append to a list -/

theorem foldl_proj_append {σ α β : Type} (π : σ → List β) (step : σ → α → σ)
    (f : α → List β) (h : ∀ s x, π (step s x) = π s ++ f x) (xs : List α) (s : σ) :
    π (xs.foldl step s) = π s ++ xs.flatMap f := by
  induction xs generalizing s with
  | nil => simp
  | cons x xs ih => simp [List.foldl_cons, ih, h, List.flatMap_cons, List.append_assoc]

theorem foldl_proj_const {σ α β : Type} (π : σ → β) (step : σ → α → σ)
    (h : ∀ s x, π (step s x) = π s) (xs : List α) (s : σ) :
    π (xs.foldl step s) = π s := by
  induction xs generalizing s with
  | nil => rfl
  | cons x xs ih => simp [List.foldl_cons, ih, h]

theorem flatMap_single {α β : Type} (f : α → β) (xs : List α) :
    xs.flatMap (fun x => [f x]) = xs.map f := by
  induction xs with
  | nil => rfl
  | cons x xs ih => simp [List.flatMap_cons, ih]

theorem AddTime_list (m : MetricList) (labels : Labels) (value : Time) :
    (m.AddTime labels value).list = m.list ++ timeRows labels value := by
  unfold MetricList.AddTime timeRows
  by_cases h : timeToFloat64 value > 0 <;> simp [h]

theorem AddIfNotZero_list (m : MetricList) (labels : Labels) (value : ℚ) :
    (m.AddIfNotZero labels value).list = m.list ++ notZeroRows labels value := by
  unfold MetricList.AddIfNotZero notZeroRows
  by_cases h : value = 0 <;> simp [h]

theorem collectBuild_buildMetric (project : Project) (s : BuildCallback) (build : Build) :
    (collectBuild project s build).buildMetric.list =
      s.buildMetric.list ++ [⟨buildInfoLabels project build, 1⟩] := rfl

theorem collectBuild_buildStatusMetric (project : Project) (s : BuildCallback) (build : Build) :
    (collectBuild project s build).buildStatusMetric.list =
      s.buildStatusMetric.list ++ buildStatusRows project build := by
  simp [collectBuild, buildStatusRows, AddTime_list, MetricList.AddDuration, List.append_assoc]

theorem Collect_build_ok (m : MetricsCollectorLatestBuild) (client : Client)
    (callback : List BuildCallback) (project : Project) (list : BuildList)
    (h : client.ListLatestBuilds project.Id = .ok list) :
    ∃ task, m.Collect client callback project = (m, callback ++ [task]) ∧
      task.buildMetric.list = list.List.map (fun b => ⟨buildInfoLabels project b, 1⟩) ∧
      task.buildStatusMetric.list = list.List.flatMap (buildStatusRows project) := by
  refine ⟨list.List.foldl (collectBuild project) ⟨NewMetricsList, NewMetricsList⟩, ?_, ?_, ?_⟩
  · simp [MetricsCollectorLatestBuild.Collect, h]
  · have := foldl_proj_append (fun s : BuildCallback => s.buildMetric.list)
      (collectBuild project) (fun b => [⟨buildInfoLabels project b, 1⟩])
      (collectBuild_buildMetric project) list.List ⟨NewMetricsList, NewMetricsList⟩
    simpa [NewMetricsList, flatMap_single] using this
  · have := foldl_proj_append (fun s : BuildCallback => s.buildStatusMetric.list)
      (collectBuild project) (buildStatusRows project)
      (collectBuild_buildStatusMetric project) list.List ⟨NewMetricsList, NewMetricsList⟩
    simpa [NewMetricsList] using this

theorem filter_flatMap {α β : Type} (p : β → Bool) (f : α → List β) (xs : List α) :
    (xs.flatMap f).filter p = xs.flatMap (fun x => (f x).filter p) := by
  induction xs with
  | nil => rfl
  | cons x xs ih => simp [List.flatMap_cons, List.filter_append, ih]

theorem Seconds_eq (d : Duration) : Duration.Seconds d = (d : ℚ) / 1000000000 := by
  unfold Duration.Seconds
  have h := Int.tdiv_add_tmod d 1000000000
  have h2 : ((1000000000 * Int.tdiv d 1000000000 + Int.tmod d 1000000000 : Int) : ℚ)
      = (d : ℚ) := by
    rw [h]
  push_cast at h2
  field_simp
  linarith

theorem typeIs_buildStatusLabels (project : Project) (build : Build) (t u : String) (v : ℚ) :
    typeIs u ⟨buildStatusLabels project build t, v⟩ = decide (t = u) := by
  by_cases h : t = u <;> simp [typeIs, buildStatusLabels, List.lookup, h]

theorem filter_timeRows (project : Project) (build : Build) (t u : String) (x : Time) :
    (timeRows (buildStatusLabels project build t) x).filter (typeIs u) =
      if t = u then timeRows (buildStatusLabels project build t) x else [] := by
  unfold timeRows
  by_cases h : timeToFloat64 x > 0 <;> by_cases h2 : t = u <;>
    simp [h, h2, typeIs_buildStatusLabels]

theorem filter_jobDuration_buildStatusRows (project : Project) (build : Build) :
    (buildStatusRows project build).filter (typeIs "jobDuration") =
      [⟨buildStatusLabels project build "jobDuration",
        Duration.Seconds (build.FinishTime.Sub build.StartTime)⟩] := by
  simp [buildStatusRows, List.filter_append, filter_timeRows, typeIs_buildStatusLabels]

theorem Time.Before_iff (t u : Time) : t.Before u = true ↔ t.diffNs u < 0 := by
  have h1 := t.nsec_lt
  have h2 := u.nsec_lt
  simp only [Time.Before, Time.diffNs, Bool.or_eq_true, Bool.and_eq_true, decide_eq_true_eq,
    beq_iff_eq]
  omega

theorem Collect_build_jobDuration (m : MetricsCollectorLatestBuild) (client : Client)
    (callback : List BuildCallback) (project : Project) (list : BuildList)
    (h : client.ListLatestBuilds project.Id = .ok list) :
    ∃ task, m.Collect client callback project = (m, callback ++ [task]) ∧
      task.buildStatusMetric.list.filter (typeIs "jobDuration") =
        list.List.map (fun b => ⟨buildStatusLabels project b "jobDuration",
          Duration.Seconds (b.FinishTime.Sub b.StartTime)⟩) := by
  obtain ⟨task, h1, _, h3⟩ := Collect_build_ok m client callback project list h
  refine ⟨task, h1, ?_⟩
  rw [h3, filter_flatMap]
  simp only [filter_jobDuration_buildStatusRows]
  exact flatMap_single _ _

theorem int64ToString_42 : int64ToString 42 = "42" := by
  simp [int64ToString, natToString]
  decide

/-- C9: a successful Collect of the build collector sends one task whose build-info list
has exactly one row per fetched build, in list order, each with value 1 and with label
buildID the decimal rendering of the build Id; a single build with Id 42 gives exactly
one row, with buildID 42. -/
theorem C9_build_info_one_per_build (m : MetricsCollectorLatestBuild) (client : Client)
    (callback : List BuildCallback) (project : Project) (list : BuildList)
    (h : client.ListLatestBuilds project.Id = .ok list) :
    ∃ task, m.Collect client callback project = (m, callback ++ [task]) ∧
      task.buildMetric.list = list.List.map (fun b => ⟨buildInfoLabels project b, 1⟩) ∧
      task.buildMetric.list.map (fun r => (r.label "buildID", r.value)) =
        list.List.map (fun b => (some (int64ToString b.Id), (1 : ℚ))) ∧
      (∀ b, list.List = [b] → b.Id = 42 →
        task.buildMetric.list.map (fun r => (r.label "buildID", r.value)) =
          [(some "42", (1 : ℚ))]) := by
  obtain ⟨task, h1, h2, _⟩ := Collect_build_ok m client callback project list h
  have h3 : task.buildMetric.list.map (fun r => (r.label "buildID", r.value)) =
      list.List.map (fun b => (some (int64ToString b.Id), (1 : ℚ))) := by
    rw [h2, List.map_map]
    apply List.map_congr_left
    intro b _
    simp [MetricRow.label, buildInfoLabels, List.lookup]
  refine ⟨task, h1, h2, h3, ?_⟩
  intro b hb hid
  rw [h3, hb]
  simp [hid, int64ToString_42]

theorem C9_build_info_one_per_build_witness :
    ∃ task, MetricsCollectorLatestBuild.Setup.Collect (clientOf [exBuild] [] []) [] exProject
        = (MetricsCollectorLatestBuild.Setup, [] ++ [task]) ∧
      task.buildMetric.list = [exBuild].map (fun b => ⟨buildInfoLabels exProject b, 1⟩) ∧
      task.buildMetric.list.map (fun r => (r.label "buildID", r.value)) =
        [exBuild].map (fun b => (some (int64ToString b.Id), (1 : ℚ))) ∧
      (∀ b, [exBuild] = [b] → b.Id = 42 →
        task.buildMetric.list.map (fun r => (r.label "buildID", r.value)) =
          [(some "42", (1 : ℚ))]) :=
  C9_build_info_one_per_build MetricsCollectorLatestBuild.Setup (clientOf [exBuild] [] []) []
    exProject ⟨[exBuild]⟩ rfl

theorem Sub_of_fits (t u : Time) (h1 : minDuration ≤ t.diffNs u) (h2 : t.diffNs u ≤ maxDuration) :
    t.Sub u = t.diffNs u := by
  unfold Time.Sub
  simp only
  rw [if_neg (not_lt.mpr h1), if_neg (not_lt.mpr h2)]

theorem Sub_neg_of_diff_neg (t u : Time) (h : t.diffNs u < 0) : t.Sub u < 0 := by
  have hmax : (0 : Int) ≤ maxDuration := by simp [maxDuration]
  have hmin : minDuration < 0 := by simp [minDuration]
  have h2 : ¬ maxDuration < t.diffNs u := not_lt.mpr (le_trans (le_of_lt h) hmax)
  unfold Time.Sub
  simp only
  by_cases h1 : t.diffNs u < minDuration
  · rw [if_pos h1]
    exact hmin
  · rw [if_neg h1, if_neg h2]
    exact h

theorem Seconds_neg (d : Duration) (h : d < 0) : Duration.Seconds d < 0 := by
  rw [Seconds_eq]
  have : (d : ℚ) < 0 := by exact_mod_cast h
  apply div_neg_of_neg_of_pos this
  norm_num

theorem Sub_of_below (t u : Time) (h : t.diffNs u < minDuration) : t.Sub u = minDuration := by
  unfold Time.Sub
  simp only
  rw [if_pos h]

theorem Sub_of_above (t u : Time) (h : maxDuration < t.diffNs u) : t.Sub u = maxDuration := by
  have hlt : minDuration < maxDuration := by simp [minDuration, maxDuration]
  have h1 : ¬ t.diffNs u < minDuration := not_lt.mpr (le_of_lt (lt_trans hlt h))
  unfold Time.Sub
  simp only
  rw [if_neg h1, if_pos h]

/-- C5 (as amended): every build of a successful cycle yields exactly one jobDuration row,
in list order, whose value is Go's FinishTime.Sub(StartTime) in seconds. Whenever the
difference fits a Duration the value is the exact signed difference; when the difference
is below the minimum Duration the value is the minimum Duration (-2^63 ns) in seconds, and
when it is above the maximum Duration the value is the maximum Duration (2^63 - 1 ns) in
seconds; a build that finished before it started has a negative value (never clamped to
zero); a build that finished 300 s after it started has value 300. -/
theorem C5_jobDuration_value (m : MetricsCollectorLatestBuild) (client : Client)
    (callback : List BuildCallback) (project : Project) (list : BuildList)
    (h : client.ListLatestBuilds project.Id = .ok list) :
    ∃ task, m.Collect client callback project = (m, callback ++ [task]) ∧
      task.buildStatusMetric.list.filter (typeIs "jobDuration") =
        list.List.map (fun b => ⟨buildStatusLabels project b "jobDuration",
          Duration.Seconds (b.FinishTime.Sub b.StartTime)⟩) ∧
      ∀ b ∈ list.List,
        (minDuration ≤ b.FinishTime.diffNs b.StartTime →
          b.FinishTime.diffNs b.StartTime ≤ maxDuration →
          Duration.Seconds (b.FinishTime.Sub b.StartTime) =
            ((b.FinishTime.diffNs b.StartTime : Int) : ℚ) / 1000000000) ∧
        (b.FinishTime.diffNs b.StartTime < minDuration →
          Duration.Seconds (b.FinishTime.Sub b.StartTime) =
            -9223372036854775808 / 1000000000) ∧
        (maxDuration < b.FinishTime.diffNs b.StartTime →
          Duration.Seconds (b.FinishTime.Sub b.StartTime) =
            9223372036854775807 / 1000000000) ∧
        (b.FinishTime.Before b.StartTime = true →
          Duration.Seconds (b.FinishTime.Sub b.StartTime) < 0) ∧
        (b.FinishTime.sec = b.StartTime.sec + 300 → b.FinishTime.nsec = b.StartTime.nsec →
          Duration.Seconds (b.FinishTime.Sub b.StartTime) = 300) := by
  obtain ⟨task, h1, h2⟩ := Collect_build_jobDuration m client callback project list h
  refine ⟨task, h1, h2, ?_⟩
  intro b _
  refine ⟨?_, ?_, ?_, ?_, ?_⟩
  · intro hlo hhi
    rw [Sub_of_fits _ _ hlo hhi, Seconds_eq]
  · intro hlo
    rw [Sub_of_below _ _ hlo, Seconds_eq]
    simp only [minDuration]
    norm_num
  · intro hhi
    rw [Sub_of_above _ _ hhi, Seconds_eq]
    simp only [maxDuration]
    norm_num
  · intro hb
    exact Seconds_neg _ (Sub_neg_of_diff_neg _ _ ((Time.Before_iff _ _).mp hb))
  · intro hs hn
    have hd : b.FinishTime.diffNs b.StartTime = 300000000000 := by
      unfold Time.diffNs
      rw [hs, hn]
      ring
    rw [Sub_of_fits _ _ (by rw [hd]; simp [minDuration]) (by rw [hd]; simp [maxDuration]),
      Seconds_eq, hd]
    norm_num

theorem C5_jobDuration_value_witness :
    ∃ task,
      MetricsCollectorLatestBuild.Setup.Collect (clientOf [exBuild, exRunningBuild] [] []) []
        exProject = (MetricsCollectorLatestBuild.Setup, [] ++ [task]) ∧
      task.buildStatusMetric.list.filter (typeIs "jobDuration") =
        [exBuild, exRunningBuild].map (fun b => ⟨buildStatusLabels exProject b "jobDuration",
          Duration.Seconds (b.FinishTime.Sub b.StartTime)⟩) ∧
      ∀ b ∈ [exBuild, exRunningBuild],
        (minDuration ≤ b.FinishTime.diffNs b.StartTime →
          b.FinishTime.diffNs b.StartTime ≤ maxDuration →
          Duration.Seconds (b.FinishTime.Sub b.StartTime) =
            ((b.FinishTime.diffNs b.StartTime : Int) : ℚ) / 1000000000) ∧
        (b.FinishTime.diffNs b.StartTime < minDuration →
          Duration.Seconds (b.FinishTime.Sub b.StartTime) =
            -9223372036854775808 / 1000000000) ∧
        (maxDuration < b.FinishTime.diffNs b.StartTime →
          Duration.Seconds (b.FinishTime.Sub b.StartTime) =
            9223372036854775807 / 1000000000) ∧
        (b.FinishTime.Before b.StartTime = true →
          Duration.Seconds (b.FinishTime.Sub b.StartTime) < 0) ∧
        (b.FinishTime.sec = b.StartTime.sec + 300 → b.FinishTime.nsec = b.StartTime.nsec →
          Duration.Seconds (b.FinishTime.Sub b.StartTime) = 300) :=
  C5_jobDuration_value MetricsCollectorLatestBuild.Setup
    (clientOf [exBuild, exRunningBuild] [] []) [] exProject ⟨[exBuild, exRunningBuild]⟩ rfl

/-- C5, counterexample: for the running build (finish time unset, so FinishTime is before
StartTime) the jobDuration row of Collect does not carry the exact signed difference
FinishTime - StartTime: Go's Sub returns the minimum Duration instead. -/
theorem C5_counterexample :
    exRunningBuild.FinishTime.Before exRunningBuild.StartTime = true ∧
    ∃ task r,
      MetricsCollectorLatestBuild.Setup.Collect (clientOf [exRunningBuild] [] []) [] exProject
        = (MetricsCollectorLatestBuild.Setup, [task]) ∧
      task.buildStatusMetric.list.filter (typeIs "jobDuration") = [r] ∧
      r.value = -9223372036854775808 / 1000000000 ∧
      r.value ≠
        ((exRunningBuild.FinishTime.diffNs exRunningBuild.StartTime : Int) : ℚ) / 1000000000 := by
  refine ⟨by decide, ?_⟩
  obtain ⟨task, h1, h2⟩ := Collect_build_jobDuration MetricsCollectorLatestBuild.Setup
    (clientOf [exRunningBuild] [] []) [] exProject ⟨[exRunningBuild]⟩ rfl
  have hsub : exRunningBuild.FinishTime.Sub exRunningBuild.StartTime = -9223372036854775808 := by
    decide
  have hdiff : exRunningBuild.FinishTime.diffNs exRunningBuild.StartTime
      = -63839664000000000000 := by decide
  refine ⟨task, _, h1, h2, ?_, ?_⟩
  · simp only [List.map]
    rw [hsub, Seconds_eq]
    norm_num
  · simp only [List.map]
    rw [hsub, Seconds_eq, hdiff]
    norm_num

/-- C6 (as amended): the build jobDuration row is emitted for every build of a successful
cycle, also when StartTime or FinishTime is unset: the jobDuration rows are exactly one
per build, in list order, and each carries FinishTime.Sub(StartTime) in seconds. -/
theorem C6_jobDuration_every_build (m : MetricsCollectorLatestBuild) (client : Client)
    (callback : List BuildCallback) (project : Project) (list : BuildList)
    (h : client.ListLatestBuilds project.Id = .ok list) :
    ∃ task, m.Collect client callback project = (m, callback ++ [task]) ∧
      (task.buildStatusMetric.list.filter (typeIs "jobDuration")).map (fun r => r.labels) =
        list.List.map (fun b => buildStatusLabels project b "jobDuration") ∧
      ∀ b ∈ list.List,
        (⟨buildStatusLabels project b "jobDuration",
          Duration.Seconds (b.FinishTime.Sub b.StartTime)⟩ : MetricRow)
            ∈ task.buildStatusMetric.list := by
  obtain ⟨task, h1, h2⟩ := Collect_build_jobDuration m client callback project list h
  refine ⟨task, h1, ?_, ?_⟩
  · rw [h2, List.map_map]
    rfl
  · intro b hb
    have : (⟨buildStatusLabels project b "jobDuration",
        Duration.Seconds (b.FinishTime.Sub b.StartTime)⟩ : MetricRow)
          ∈ task.buildStatusMetric.list.filter (typeIs "jobDuration") := by
      rw [h2]
      exact List.mem_map.mpr ⟨b, hb, rfl⟩
    exact (List.mem_filter.mp this).1

theorem C6_jobDuration_every_build_witness :
    ∃ task,
      MetricsCollectorLatestBuild.Setup.Collect (clientOf [exBuild, exQueuedBuild] [] []) []
        exProject = (MetricsCollectorLatestBuild.Setup, [] ++ [task]) ∧
      (task.buildStatusMetric.list.filter (typeIs "jobDuration")).map (fun r => r.labels) =
        [exBuild, exQueuedBuild].map (fun b => buildStatusLabels exProject b "jobDuration") ∧
      ∀ b ∈ [exBuild, exQueuedBuild],
        (⟨buildStatusLabels exProject b "jobDuration",
          Duration.Seconds (b.FinishTime.Sub b.StartTime)⟩ : MetricRow)
            ∈ task.buildStatusMetric.list :=
  C6_jobDuration_every_build MetricsCollectorLatestBuild.Setup
    (clientOf [exBuild, exQueuedBuild] [] []) [] exProject ⟨[exBuild, exQueuedBuild]⟩ rfl

/-- C6, counterexample: the running build has its FinishTime unset, yet Collect buffers a
build-status row with type jobDuration for it. -/
theorem C6_counterexample :
    exRunningBuild.FinishTime.IsZero = true ∧
    ∃ task r,
      MetricsCollectorLatestBuild.Setup.Collect (clientOf [exRunningBuild] [] []) [] exProject
        = (MetricsCollectorLatestBuild.Setup, [task]) ∧
      r ∈ task.buildStatusMetric.list ∧
      r.labels = buildStatusLabels exProject exRunningBuild "jobDuration" ∧
      typeIs "jobDuration" r = true := by
  refine ⟨by decide, ?_⟩
  obtain ⟨task, h1, h2⟩ := Collect_build_jobDuration MetricsCollectorLatestBuild.Setup
    (clientOf [exRunningBuild] [] []) [] exProject ⟨[exRunningBuild]⟩ rfl
  have hmem : (⟨buildStatusLabels exProject exRunningBuild "jobDuration",
      Duration.Seconds (exRunningBuild.FinishTime.Sub exRunningBuild.StartTime)⟩ : MetricRow)
        ∈ task.buildStatusMetric.list.filter (typeIs "jobDuration") := by
    rw [h2]
    exact List.mem_singleton.mpr rfl
  exact ⟨task, _, h1, (List.mem_filter.mp hmem).1, rfl, (List.mem_filter.mp hmem).2⟩

theorem collectApproval_list (project : Project) (release : Release)
    (environment : ReleaseEnvironment) (s : MetricList) (approval : ReleaseEnvironmentApproval) :
    (collectApproval project release environment s approval).list =
      s.list ++ approvalRows project release environment approval := by
  unfold collectApproval approvalRows
  by_cases h : approval.IsAutomated = true
  · simp [h]
  · simp [h, AddTime_list]

theorem foldl_collectApproval (project : Project) (release : Release)
    (environment : ReleaseEnvironment) (xs : List ReleaseEnvironmentApproval) (s : MetricList) :
    (xs.foldl (collectApproval project release environment) s).list =
      s.list ++ xs.flatMap (approvalRows project release environment) :=
  foldl_proj_append MetricList.list _ _ (collectApproval_list project release environment) xs s

theorem collectEnvironment_approval (project : Project) (release : Release)
    (s : ReleaseCallback) (environment : ReleaseEnvironment) :
    (collectEnvironment project release s environment).releaseEnvironmentApprovalMetric.list =
      s.releaseEnvironmentApprovalMetric.list ++
        environmentApprovalRows project release environment := by
  simp [collectEnvironment, environmentApprovalRows, foldl_collectApproval, List.append_assoc]

theorem collectEnvironment_status (project : Project) (release : Release)
    (s : ReleaseCallback) (environment : ReleaseEnvironment) :
    (collectEnvironment project release s environment).releaseEnvironmentStatusMetric.list =
      s.releaseEnvironmentStatusMetric.list ++
        environmentStatusRows project release environment := by
  simp [collectEnvironment, environmentStatusRows, AddTime_list, AddIfNotZero_list,
    MetricList.AddBool, List.append_assoc]

theorem collectEnvironment_environment (project : Project) (release : Release)
    (s : ReleaseCallback) (environment : ReleaseEnvironment) :
    (collectEnvironment project release s environment).releaseEnvironmentMetric.list =
      s.releaseEnvironmentMetric.list ++
        [⟨releaseEnvironmentLabels project release environment, 1⟩] := rfl

theorem collectRelease_approval (project : Project) (s : ReleaseCallback) (release : Release) :
    (collectRelease project s release).releaseEnvironmentApprovalMetric.list =
      s.releaseEnvironmentApprovalMetric.list ++
        release.Environments.flatMap (environmentApprovalRows project release) := by
  unfold collectRelease
  exact foldl_proj_append (fun s : ReleaseCallback => s.releaseEnvironmentApprovalMetric.list)
    _ _ (collectEnvironment_approval project release) _ _

theorem collectRelease_status (project : Project) (s : ReleaseCallback) (release : Release) :
    (collectRelease project s release).releaseEnvironmentStatusMetric.list =
      s.releaseEnvironmentStatusMetric.list ++
        release.Environments.flatMap (environmentStatusRows project release) := by
  unfold collectRelease
  exact foldl_proj_append (fun s : ReleaseCallback => s.releaseEnvironmentStatusMetric.list)
    _ _ (collectEnvironment_status project release) _ _

theorem collectRelease_environment (project : Project) (s : ReleaseCallback)
    (release : Release) :
    (collectRelease project s release).releaseEnvironmentMetric.list =
      s.releaseEnvironmentMetric.list ++
        release.Environments.map (fun e => ⟨releaseEnvironmentLabels project release e, 1⟩) := by
  unfold collectRelease
  rw [← flatMap_single]
  exact foldl_proj_append (fun s : ReleaseCallback => s.releaseEnvironmentMetric.list)
    _ _ (collectEnvironment_environment project release) _ _

theorem collectRelease_artifact (project : Project) (s : ReleaseCallback) (release : Release) :
    (collectRelease project s release).releaseArtifactMetric.list =
      s.releaseArtifactMetric.list ++
        release.Artifacts.map (fun a => ⟨releaseArtifactLabels project release a, 1⟩) := by
  unfold collectRelease
  rw [foldl_proj_const (fun s : ReleaseCallback => s.releaseArtifactMetric.list)
    (collectEnvironment project release) (fun _ _ => rfl)]
  rw [← flatMap_single]
  exact foldl_proj_append MetricList.list (collectArtifact project release) _
    (fun _ _ => rfl) _ _

theorem collectRelease_release (project : Project) (s : ReleaseCallback) (release : Release) :
    (collectRelease project s release).releaseMetric.list =
      s.releaseMetric.list ++ [⟨releaseLabels project release, 1⟩] := by
  unfold collectRelease
  rw [foldl_proj_const (fun s : ReleaseCallback => s.releaseMetric.list)
    (collectEnvironment project release) (fun _ _ => rfl)]
  rfl

theorem collectRelease_definition (project : Project) (s : ReleaseCallback)
    (release : Release) :
    (collectRelease project s release).releaseDefinitionMetric = s.releaseDefinitionMetric := by
  unfold collectRelease
  rw [foldl_proj_const (fun s : ReleaseCallback => s.releaseDefinitionMetric)
    (collectEnvironment project release) (fun _ _ => rfl)]

theorem collectRelease_definitionEnvironment (project : Project) (s : ReleaseCallback)
    (release : Release) :
    (collectRelease project s release).releaseDefinitionEnvironmentMetric =
      s.releaseDefinitionEnvironmentMetric := by
  unfold collectRelease
  rw [foldl_proj_const (fun s : ReleaseCallback => s.releaseDefinitionEnvironmentMetric)
    (collectEnvironment project release) (fun _ _ => rfl)]

theorem collectReleaseDefinition_definition (project : Project) (s : ReleaseCallback)
    (d : ReleaseDefinition) :
    (collectReleaseDefinition project s d).releaseDefinitionMetric.list =
      s.releaseDefinitionMetric.list ++ [⟨releaseDefinitionLabels project d, 1⟩] := rfl

theorem collectReleaseDefinition_definitionEnvironment (project : Project)
    (s : ReleaseCallback) (d : ReleaseDefinition) :
    (collectReleaseDefinition project s d).releaseDefinitionEnvironmentMetric.list =
      s.releaseDefinitionEnvironmentMetric.list ++
        d.Environments.map (fun e => ⟨releaseDefinitionEnvironmentLabels project d e, 1⟩) := by
  unfold collectReleaseDefinition
  rw [← flatMap_single]
  exact foldl_proj_append MetricList.list (collectDefinitionEnvironment project d) _
    (fun _ _ => rfl) _ _

/-- The seven lists of the task a successful release cycle sends. -/
theorem Collect_release_ok (m : MetricsCollectorRelease) (client : Client) (opts : Opts)
    (now : Time) (callback : List ReleaseCallback) (project : Project)
    (list : ReleaseDefinitionList) (releaseList : ReleaseList)
    (h1 : client.ListReleaseDefinitions project.Id = .ok list)
    (h2 : client.ListReleaseHistory project.Id (now.Add (-opts.ReleaseHistoryDuration))
      = .ok releaseList) :
    ∃ task, m.Collect client opts now callback project = (m, callback ++ [task]) ∧
      task.releaseDefinitionMetric.list =
        list.List.map (fun d => ⟨releaseDefinitionLabels project d, 1⟩) ∧
      task.releaseDefinitionEnvironmentMetric.list =
        list.List.flatMap (fun d => d.Environments.map
          (fun e => ⟨releaseDefinitionEnvironmentLabels project d e, 1⟩)) ∧
      task.releaseMetric.list =
        releaseList.List.map (fun r => ⟨releaseLabels project r, 1⟩) ∧
      task.releaseArtifactMetric.list =
        releaseList.List.flatMap (fun r => r.Artifacts.map
          (fun a => ⟨releaseArtifactLabels project r a, 1⟩)) ∧
      task.releaseEnvironmentMetric.list =
        releaseList.List.flatMap (fun r => r.Environments.map
          (fun e => ⟨releaseEnvironmentLabels project r e, 1⟩)) ∧
      task.releaseEnvironmentApprovalMetric.list =
        releaseList.List.flatMap (fun r =>
          r.Environments.flatMap (environmentApprovalRows project r)) ∧
      task.releaseEnvironmentStatusMetric.list =
        releaseList.List.flatMap (fun r =>
          r.Environments.flatMap (environmentStatusRows project r)) := by
  let s1 := list.List.foldl (collectReleaseDefinition project) emptyReleaseCallback
  refine ⟨releaseList.List.foldl (collectRelease project) s1, ?_, ?_, ?_, ?_, ?_, ?_, ?_, ?_⟩
  · simp [MetricsCollectorRelease.Collect, h1, h2, s1, emptyReleaseCallback]
  · rw [foldl_proj_const (fun s : ReleaseCallback => s.releaseDefinitionMetric)
      (collectRelease project) (collectRelease_definition project)]
    have := foldl_proj_append (fun s : ReleaseCallback => s.releaseDefinitionMetric.list)
      (collectReleaseDefinition project) _ (collectReleaseDefinition_definition project)
      list.List emptyReleaseCallback
    simpa [s1, emptyReleaseCallback, NewMetricsList, flatMap_single] using this
  · rw [foldl_proj_const (fun s : ReleaseCallback => s.releaseDefinitionEnvironmentMetric)
      (collectRelease project) (collectRelease_definitionEnvironment project)]
    have := foldl_proj_append
      (fun s : ReleaseCallback => s.releaseDefinitionEnvironmentMetric.list)
      (collectReleaseDefinition project) _
      (collectReleaseDefinition_definitionEnvironment project) list.List emptyReleaseCallback
    simpa [s1, emptyReleaseCallback, NewMetricsList] using this
  · have h0 : s1.releaseMetric = NewMetricsList :=
      foldl_proj_const (fun s : ReleaseCallback => s.releaseMetric)
        (collectReleaseDefinition project) (fun _ _ => rfl) list.List emptyReleaseCallback
    have := foldl_proj_append (fun s : ReleaseCallback => s.releaseMetric.list)
      (collectRelease project) _ (collectRelease_release project) releaseList.List s1
    simpa [h0, NewMetricsList, flatMap_single] using this
  · have h0 : s1.releaseArtifactMetric = NewMetricsList :=
      foldl_proj_const (fun s : ReleaseCallback => s.releaseArtifactMetric)
        (collectReleaseDefinition project) (fun _ _ => rfl) list.List emptyReleaseCallback
    have := foldl_proj_append (fun s : ReleaseCallback => s.releaseArtifactMetric.list)
      (collectRelease project) _ (collectRelease_artifact project) releaseList.List s1
    simpa [h0, NewMetricsList] using this
  · have h0 : s1.releaseEnvironmentMetric = NewMetricsList :=
      foldl_proj_const (fun s : ReleaseCallback => s.releaseEnvironmentMetric)
        (collectReleaseDefinition project) (fun _ _ => rfl) list.List emptyReleaseCallback
    have := foldl_proj_append (fun s : ReleaseCallback => s.releaseEnvironmentMetric.list)
      (collectRelease project) _ (collectRelease_environment project) releaseList.List s1
    simpa [h0, NewMetricsList] using this
  · have h0 : s1.releaseEnvironmentApprovalMetric = NewMetricsList :=
      foldl_proj_const (fun s : ReleaseCallback => s.releaseEnvironmentApprovalMetric)
        (collectReleaseDefinition project) (fun _ _ => rfl) list.List emptyReleaseCallback
    have := foldl_proj_append
      (fun s : ReleaseCallback => s.releaseEnvironmentApprovalMetric.list)
      (collectRelease project) _ (collectRelease_approval project) releaseList.List s1
    simpa [h0, NewMetricsList] using this
  · have h0 : s1.releaseEnvironmentStatusMetric = NewMetricsList :=
      foldl_proj_const (fun s : ReleaseCallback => s.releaseEnvironmentStatusMetric)
        (collectReleaseDefinition project) (fun _ _ => rfl) list.List emptyReleaseCallback
    have := foldl_proj_append
      (fun s : ReleaseCallback => s.releaseEnvironmentStatusMetric.list)
      (collectRelease project) _ (collectRelease_status project) releaseList.List s1
    simpa [h0, NewMetricsList] using this

theorem filter_typeIs_timeRows (labels : Labels) (x : Time) (u : String) :
    (timeRows labels x).filter (typeIs u) =
      if labels.lookup "type" = some u then timeRows labels x else [] := by
  unfold timeRows
  by_cases h : timeToFloat64 x > 0 <;> by_cases h2 : labels.lookup "type" = some u <;>
    simp [h, h2, typeIs]

theorem filter_typeIs_notZeroRows (labels : Labels) (v : ℚ) (u : String) :
    (notZeroRows labels v).filter (typeIs u) =
      if labels.lookup "type" = some u then notZeroRows labels v else [] := by
  unfold notZeroRows
  by_cases h : v = 0 <;> by_cases h2 : labels.lookup "type" = some u <;>
    simp [h, h2, typeIs]

theorem lookup_type_releaseEnvironmentStatusLabels (project : Project) (release : Release)
    (environment : ReleaseEnvironment) (t : String) :
    (releaseEnvironmentStatusLabels project release environment t).lookup "type" = some t := by
  simp [releaseEnvironmentStatusLabels, List.lookup]

theorem lookup_type_buildStatusLabels (project : Project) (build : Build) (t : String) :
    (buildStatusLabels project build t).lookup "type" = some t := by
  simp [buildStatusLabels, List.lookup]

theorem timeToFloat64_zero_not_pos : ¬ timeToFloat64 Time.zero > 0 := by
  simp [timeToFloat64, Time.Unix, Time.zero, unixToInternal]

theorem timeRows_zero (labels : Labels) : timeRows labels Time.zero = [] := by
  simp [timeRows, timeToFloat64_zero_not_pos]

theorem timeRows_pos (labels : Labels) (x : Time) :
    ∀ r ∈ timeRows labels x, r = ⟨labels, timeToFloat64 x⟩ ∧ 0 < r.value ∧ x ≠ Time.zero := by
  intro r hr
  unfold timeRows at hr
  by_cases h : timeToFloat64 x > 0
  · rw [if_pos h] at hr
    have hr2 : r = ⟨labels, timeToFloat64 x⟩ := by simpa using hr
    refine ⟨hr2, ?_, ?_⟩
    · rw [hr2]
      exact h
    · intro hx
      rw [hx] at h
      exact timeToFloat64_zero_not_pos h
  · rw [if_neg h] at hr
    simp at hr

theorem lookup_isAutomated (project : Project) (release : Release)
    (environment : ReleaseEnvironment) (approval : ReleaseEnvironmentApproval) :
    (releaseApprovalLabels project release environment approval).lookup "isAutomated" =
      some (boolToString approval.IsAutomated) := by
  simp [releaseApprovalLabels, List.lookup]

theorem mem_approvalRows (project : Project) (release : Release)
    (environment : ReleaseEnvironment) (approval : ReleaseEnvironmentApproval) (r : MetricRow)
    (hr : r ∈ approvalRows project release environment approval) :
    approval.IsAutomated = false ∧
      r = ⟨releaseApprovalLabels project release environment approval,
        timeToFloat64 approval.CreatedOn⟩ ∧
      0 < r.value ∧ approval.CreatedOn ≠ Time.zero := by
  unfold approvalRows at hr
  by_cases h : approval.IsAutomated = true
  · simp [h] at hr
  · rw [if_neg h] at hr
    have := timeRows_pos _ _ r hr
    exact ⟨by simpa using h, this.1, this.2.1, this.2.2⟩

theorem mem_environmentApprovalRows (project : Project) (release : Release)
    (environment : ReleaseEnvironment) (r : MetricRow)
    (hr : r ∈ environmentApprovalRows project release environment) :
    ∃ approval ∈ environment.PreDeployApprovals ++ environment.PostDeployApprovals,
      r ∈ approvalRows project release environment approval := by
  unfold environmentApprovalRows at hr
  rcases List.mem_append.mp hr with h | h
  · obtain ⟨a, ha, hra⟩ := List.mem_flatMap.mp h
    exact ⟨a, List.mem_append.mpr (Or.inl ha), hra⟩
  · obtain ⟨a, ha, hra⟩ := List.mem_flatMap.mp h
    exact ⟨a, List.mem_append.mpr (Or.inr ha), hra⟩

/-- C3: in the task of a successful release cycle every row of the approval list comes from
a pre- or post-deploy approval with IsAutomated = false (and carries the label
isAutomated = false); an iteration of an approval loop over an automated approval leaves
the approval list as it was. -/
theorem C3_automated_approvals_excluded (m : MetricsCollectorRelease) (client : Client)
    (opts : Opts) (now : Time) (callback : List ReleaseCallback) (project : Project)
    (list : ReleaseDefinitionList) (releaseList : ReleaseList)
    (h1 : client.ListReleaseDefinitions project.Id = .ok list)
    (h2 : client.ListReleaseHistory project.Id (now.Add (-opts.ReleaseHistoryDuration))
      = .ok releaseList) :
    (∃ task, m.Collect client opts now callback project = (m, callback ++ [task]) ∧
      ∀ r ∈ task.releaseEnvironmentApprovalMetric.list,
        r.label "isAutomated" = some "false" ∧
        ∃ release ∈ releaseList.List, ∃ environment ∈ release.Environments,
          ∃ approval ∈ environment.PreDeployApprovals ++ environment.PostDeployApprovals,
            approval.IsAutomated = false ∧
            r = ⟨releaseApprovalLabels project release environment approval,
              timeToFloat64 approval.CreatedOn⟩) ∧
    (∀ (release : Release) (environment : ReleaseEnvironment) (s : MetricList)
      (approval : ReleaseEnvironmentApproval), approval.IsAutomated = true →
        collectApproval project release environment s approval = s) := by
  constructor
  · obtain ⟨task, hc, _, _, _, _, _, ha, _⟩ :=
      Collect_release_ok m client opts now callback project list releaseList h1 h2
    refine ⟨task, hc, ?_⟩
    intro r hr
    rw [ha] at hr
    obtain ⟨release, hrel, hr2⟩ := List.mem_flatMap.mp hr
    obtain ⟨environment, henv, hr3⟩ := List.mem_flatMap.mp hr2
    obtain ⟨approval, happ, hr4⟩ := mem_environmentApprovalRows _ _ _ _ hr3
    obtain ⟨hauto, hrow, _, _⟩ := mem_approvalRows _ _ _ _ _ hr4
    refine ⟨?_, release, hrel, environment, henv, approval, happ, hauto, hrow⟩
    rw [hrow]
    simp [MetricRow.label, lookup_isAutomated, hauto, boolToString]
  · intro release environment s approval h
    simp [collectApproval, h]

theorem C3_automated_approvals_excluded_witness :
    (∃ task, MetricsCollectorRelease.Setup.Collect (clientOf [] [exDefinition] [exRelease])
        exOpts exT0 [] exProject = (MetricsCollectorRelease.Setup, [] ++ [task]) ∧
      ∀ r ∈ task.releaseEnvironmentApprovalMetric.list,
        r.label "isAutomated" = some "false" ∧
        ∃ release ∈ [exRelease], ∃ environment ∈ release.Environments,
          ∃ approval ∈ environment.PreDeployApprovals ++ environment.PostDeployApprovals,
            approval.IsAutomated = false ∧
            r = ⟨releaseApprovalLabels exProject release environment approval,
              timeToFloat64 approval.CreatedOn⟩) ∧
    (∀ (release : Release) (environment : ReleaseEnvironment) (s : MetricList)
      (approval : ReleaseEnvironmentApproval), approval.IsAutomated = true →
        collectApproval exProject release environment s approval = s) :=
  C3_automated_approvals_excluded MetricsCollectorRelease.Setup
    (clientOf [] [exDefinition] [exRelease]) exOpts exT0 [] exProject ⟨[exDefinition]⟩
    ⟨[exRelease]⟩ rfl rfl

theorem approvalRows_of_dated (project : Project) (release : Release)
    (environment : ReleaseEnvironment) (approval : ReleaseEnvironmentApproval)
    (h : approval.IsAutomated = false) (ht : 0 < approval.CreatedOn.Unix) :
    approvalRows project release environment approval =
      [⟨releaseApprovalLabels project release environment approval,
        timeToFloat64 approval.CreatedOn⟩] := by
  have hpos : timeToFloat64 approval.CreatedOn > 0 := by
    unfold timeToFloat64
    exact_mod_cast ht
  simp [approvalRows, timeRows, h, hpos]

/-- C4 (as amended): in the task of a successful release cycle, every pre- or post-deploy
approval with IsAutomated = false whose CreatedOn is set (Unix time above zero) has a row
in the approval list, with value the Unix time of CreatedOn and label isAutomated = false. -/
theorem C4_human_approval_emitted (m : MetricsCollectorRelease) (client : Client)
    (opts : Opts) (now : Time) (callback : List ReleaseCallback) (project : Project)
    (list : ReleaseDefinitionList) (releaseList : ReleaseList)
    (h1 : client.ListReleaseDefinitions project.Id = .ok list)
    (h2 : client.ListReleaseHistory project.Id (now.Add (-opts.ReleaseHistoryDuration))
      = .ok releaseList) :
    ∃ task, m.Collect client opts now callback project = (m, callback ++ [task]) ∧
      ∀ release ∈ releaseList.List, ∀ environment ∈ release.Environments,
        ∀ approval ∈ environment.PreDeployApprovals ++ environment.PostDeployApprovals,
          approval.IsAutomated = false → 0 < approval.CreatedOn.Unix →
            ∃ r ∈ task.releaseEnvironmentApprovalMetric.list,
              r = ⟨releaseApprovalLabels project release environment approval,
                timeToFloat64 approval.CreatedOn⟩ ∧
              r.label "isAutomated" = some "false" := by
  obtain ⟨task, hc, _, _, _, _, _, ha, _⟩ :=
    Collect_release_ok m client opts now callback project list releaseList h1 h2
  refine ⟨task, hc, ?_⟩
  intro release hrel environment henv approval happ hauto ht
  refine ⟨_, ?_, rfl, ?_⟩
  · rw [ha]
    refine List.mem_flatMap.mpr ⟨release, hrel, List.mem_flatMap.mpr ⟨environment, henv, ?_⟩⟩
    unfold environmentApprovalRows
    have hrow := approvalRows_of_dated project release environment approval hauto ht
    rcases List.mem_append.mp happ with hp | hp
    · refine List.mem_append.mpr (Or.inl (List.mem_flatMap.mpr ⟨approval, hp, ?_⟩))
      rw [hrow]
      exact List.mem_singleton.mpr rfl
    · refine List.mem_append.mpr (Or.inr (List.mem_flatMap.mpr ⟨approval, hp, ?_⟩))
      rw [hrow]
      exact List.mem_singleton.mpr rfl
  · simp [MetricRow.label, lookup_isAutomated, hauto, boolToString]

theorem C4_human_approval_emitted_witness :
    ∃ task, MetricsCollectorRelease.Setup.Collect (clientOf [] [exDefinition] [exRelease])
        exOpts exT0 [] exProject = (MetricsCollectorRelease.Setup, [] ++ [task]) ∧
      ∀ release ∈ [exRelease], ∀ environment ∈ release.Environments,
        ∀ approval ∈ environment.PreDeployApprovals ++ environment.PostDeployApprovals,
          approval.IsAutomated = false → 0 < approval.CreatedOn.Unix →
            ∃ r ∈ task.releaseEnvironmentApprovalMetric.list,
              r = ⟨releaseApprovalLabels exProject release environment approval,
                timeToFloat64 approval.CreatedOn⟩ ∧
              r.label "isAutomated" = some "false" :=
  C4_human_approval_emitted MetricsCollectorRelease.Setup
    (clientOf [] [exDefinition] [exRelease]) exOpts exT0 [] exProject ⟨[exDefinition]⟩
    ⟨[exRelease]⟩ rfl rfl

/-- C4, counterexample: the only approval of the fetched release is by a person
(IsAutomated = false) but its CreatedOn is unset; the approval list of the task Collect
sends is empty, so that approval has no observation. -/
theorem C4_counterexample :
    (∃ environment ∈ exUndatedRelease.Environments,
      ∃ approval ∈ environment.PreDeployApprovals, approval.IsAutomated = false) ∧
    ∃ task,
      MetricsCollectorRelease.Setup.Collect (clientOf [] [exDefinition] [exUndatedRelease])
        exOpts exT0 [] exProject = (MetricsCollectorRelease.Setup, [task]) ∧
      task.releaseEnvironmentApprovalMetric.list = [] := by
  refine ⟨⟨_, List.mem_singleton.mpr rfl, exUndatedApproval, List.mem_singleton.mpr rfl, rfl⟩,
    ?_⟩
  obtain ⟨task, hc, _, _, _, _, _, ha, _⟩ :=
    Collect_release_ok MetricsCollectorRelease.Setup
      (clientOf [] [exDefinition] [exUndatedRelease]) exOpts exT0 [] exProject
      ⟨[exDefinition]⟩ ⟨[exUndatedRelease]⟩ rfl rfl
  refine ⟨task, hc, ?_⟩
  rw [ha]
  simp [exUndatedRelease, exUndatedApproval, exEnvironment, environmentApprovalRows,
    approvalRows, exApproval, timeRows_zero]

/-- C2: when a fetch fails, Collect returns with the collector (its registered series)
and the callback channel exactly as they were: for the build collector when
ListLatestBuilds fails; for the release collector when ListReleaseDefinitions fails, and
when ListReleaseHistory fails after the definitions were fetched (the definition rows
already buffered are dropped with the rest). -/
theorem C2_fetch_error_commits_nothing (client : Client) (project : Project) :
    (∀ (m : MetricsCollectorLatestBuild) (callback : List BuildCallback) (e : String),
      client.ListLatestBuilds project.Id = .error e →
        m.Collect client callback project = (m, callback)) ∧
    (∀ (m : MetricsCollectorRelease) (opts : Opts) (now : Time)
      (callback : List ReleaseCallback) (e : String),
      client.ListReleaseDefinitions project.Id = .error e →
        m.Collect client opts now callback project = (m, callback)) ∧
    (∀ (m : MetricsCollectorRelease) (opts : Opts) (now : Time)
      (callback : List ReleaseCallback) (list : ReleaseDefinitionList) (e : String),
      client.ListReleaseDefinitions project.Id = .ok list →
      client.ListReleaseHistory project.Id (now.Add (-opts.ReleaseHistoryDuration))
        = .error e →
        m.Collect client opts now callback project = (m, callback)) := by
  refine ⟨?_, ?_, ?_⟩
  · intro m callback e h
    simp [MetricsCollectorLatestBuild.Collect, h]
  · intro m opts now callback e h
    simp [MetricsCollectorRelease.Collect, h]
  · intro m opts now callback list e h1 h2
    simp [MetricsCollectorRelease.Collect, h1, h2]

theorem C2_fetch_error_commits_nothing_witness :
    MetricsCollectorLatestBuild.Setup.Collect failingClient [] exProject
      = (MetricsCollectorLatestBuild.Setup, []) ∧
    MetricsCollectorRelease.Setup.Collect failingClient exOpts exT0 [] exProject
      = (MetricsCollectorRelease.Setup, []) ∧
    MetricsCollectorRelease.Setup.Collect historyFailingClient exOpts exT0 [] exProject
      = (MetricsCollectorRelease.Setup, []) :=
  ⟨(C2_fetch_error_commits_nothing failingClient exProject).1
      MetricsCollectorLatestBuild.Setup [] "timeout" rfl,
    (C2_fetch_error_commits_nothing failingClient exProject).2.1
      MetricsCollectorRelease.Setup exOpts exT0 [] "timeout" rfl,
    (C2_fetch_error_commits_nothing historyFailingClient exProject).2.2
      MetricsCollectorRelease.Setup exOpts exT0 [] ⟨[exDefinition]⟩ "timeout" rfl rfl⟩

theorem filter_buildStatusRows_time (project : Project) (build : Build) :
    (build.StartTime = Time.zero →
      (buildStatusRows project build).filter (typeIs "started") = []) ∧
    (build.QueueTime = Time.zero →
      (buildStatusRows project build).filter (typeIs "queued") = []) ∧
    (build.FinishTime = Time.zero →
      (buildStatusRows project build).filter (typeIs "finished") = []) := by
  refine ⟨?_, ?_, ?_⟩ <;> intro h <;>
    simp [buildStatusRows, List.filter_append, filter_typeIs_timeRows,
      lookup_type_buildStatusLabels, h, timeRows_zero, typeIs]

theorem buildStatusRows_time_pos (project : Project) (build : Build) (r : MetricRow)
    (hr : r ∈ buildStatusRows project build)
    (ht : typeIs "started" r = true ∨ typeIs "queued" r = true ∨ typeIs "finished" r = true) :
    0 < r.value := by
  unfold buildStatusRows at hr
  simp only [List.mem_append, List.mem_singleton] at hr
  rcases hr with ((hr | hr) | hr) | hr
  · exact (timeRows_pos _ _ r hr).2.1
  · exact (timeRows_pos _ _ r hr).2.1
  · exact (timeRows_pos _ _ r hr).2.1
  · rw [hr] at ht
    simp [typeIs, lookup_type_buildStatusLabels] at ht

theorem environmentStatusRows_created_pos (project : Project) (release : Release)
    (environment : ReleaseEnvironment) (r : MetricRow)
    (hr : r ∈ environmentStatusRows project release environment)
    (ht : typeIs "created" r = true) : 0 < r.value := by
  unfold environmentStatusRows at hr
  simp only [List.mem_append, List.mem_singleton] at hr
  rcases hr with (hr | hr) | hr
  · rw [hr] at ht
    simp [typeIs, lookup_type_releaseEnvironmentStatusLabels] at ht
  · exact (timeRows_pos _ _ r hr).2.1
  · unfold notZeroRows at hr
    by_cases h0 : environment.TimeToDeploy * 60 = 0
    · simp [h0] at hr
    · rw [if_pos h0] at hr
      rw [List.mem_singleton.mp hr] at ht
      simp [typeIs, lookup_type_releaseEnvironmentStatusLabels] at ht

/-- C7: a time field at the zero time produces no timestamp row. One iteration of the
build loop appends no started, queued or finished row when StartTime, QueueTime or
FinishTime is unset; one iteration of the release environment loop appends no created row
when CreatedOn is unset; one iteration of an approval loop appends nothing when the
approval CreatedOn is unset. In the tasks of successful cycles every timestamp row has a
value above zero, so no row reports epoch 0. -/
theorem C7_zero_time_not_emitted (project : Project) :
    (∀ (s : BuildCallback) (build : Build),
      ∃ added, (collectBuild project s build).buildStatusMetric.list =
          s.buildStatusMetric.list ++ added ∧
        (build.StartTime = Time.zero → added.filter (typeIs "started") = []) ∧
        (build.QueueTime = Time.zero → added.filter (typeIs "queued") = []) ∧
        (build.FinishTime = Time.zero → added.filter (typeIs "finished") = [])) ∧
    (∀ (release : Release) (s : ReleaseCallback) (environment : ReleaseEnvironment),
      ∃ added, (collectEnvironment project release s environment
          ).releaseEnvironmentStatusMetric.list =
          s.releaseEnvironmentStatusMetric.list ++ added ∧
        (environment.CreatedOn = Time.zero → added.filter (typeIs "created") = [])) ∧
    (∀ (release : Release) (environment : ReleaseEnvironment) (s : MetricList)
      (approval : ReleaseEnvironmentApproval), approval.CreatedOn = Time.zero →
        collectApproval project release environment s approval = s) ∧
    (∀ (m : MetricsCollectorLatestBuild) (client : Client) (callback : List BuildCallback)
      (list : BuildList), client.ListLatestBuilds project.Id = .ok list →
      ∃ task, m.Collect client callback project = (m, callback ++ [task]) ∧
        ∀ r ∈ task.buildStatusMetric.list,
          typeIs "started" r = true ∨ typeIs "queued" r = true ∨ typeIs "finished" r = true →
            0 < r.value) ∧
    (∀ (m : MetricsCollectorRelease) (client : Client) (opts : Opts) (now : Time)
      (callback : List ReleaseCallback) (list : ReleaseDefinitionList)
      (releaseList : ReleaseList),
      client.ListReleaseDefinitions project.Id = .ok list →
      client.ListReleaseHistory project.Id (now.Add (-opts.ReleaseHistoryDuration))
        = .ok releaseList →
      ∃ task, m.Collect client opts now callback project = (m, callback ++ [task]) ∧
        (∀ r ∈ task.releaseEnvironmentStatusMetric.list,
          typeIs "created" r = true → 0 < r.value) ∧
        (∀ r ∈ task.releaseEnvironmentApprovalMetric.list, 0 < r.value)) := by
  refine ⟨?_, ?_, ?_, ?_, ?_⟩
  · intro s build
    exact ⟨buildStatusRows project build, collectBuild_buildStatusMetric project s build,
      filter_buildStatusRows_time project build⟩
  · intro release s environment
    refine ⟨environmentStatusRows project release environment,
      collectEnvironment_status project release s environment, ?_⟩
    intro h
    simp [environmentStatusRows, List.filter_append, filter_typeIs_timeRows,
      filter_typeIs_notZeroRows, lookup_type_releaseEnvironmentStatusLabels, h, timeRows_zero,
      typeIs]
  · intro release environment s approval h
    have := collectApproval_list project release environment s approval
    have hrows : approvalRows project release environment approval = [] := by
      unfold approvalRows
      rw [h, timeRows_zero]
      simp
    rw [hrows, List.append_nil] at this
    cases hs : collectApproval project release environment s approval with
    | mk l =>
      rw [hs] at this
      cases s
      simp_all
  · intro m client callback list h
    obtain ⟨task, hc, _, hst⟩ := Collect_build_ok m client callback project list h
    refine ⟨task, hc, ?_⟩
    intro r hr ht
    rw [hst] at hr
    obtain ⟨b, _, hrb⟩ := List.mem_flatMap.mp hr
    exact buildStatusRows_time_pos project b r hrb ht
  · intro m client opts now callback list releaseList h1 h2
    obtain ⟨task, hc, _, _, _, _, _, ha, hst⟩ :=
      Collect_release_ok m client opts now callback project list releaseList h1 h2
    refine ⟨task, hc, ?_, ?_⟩
    · intro r hr ht
      rw [hst] at hr
      obtain ⟨release, _, hr2⟩ := List.mem_flatMap.mp hr
      obtain ⟨environment, _, hr3⟩ := List.mem_flatMap.mp hr2
      exact environmentStatusRows_created_pos project release environment r hr3 ht
    · intro r hr
      rw [ha] at hr
      obtain ⟨release, _, hr2⟩ := List.mem_flatMap.mp hr
      obtain ⟨environment, _, hr3⟩ := List.mem_flatMap.mp hr2
      obtain ⟨approval, _, hr4⟩ := mem_environmentApprovalRows _ _ _ _ hr3
      exact (mem_approvalRows _ _ _ _ _ hr4).2.2.1

theorem C7_zero_time_not_emitted_witness :
    (∃ added, (collectBuild exProject ⟨NewMetricsList, NewMetricsList⟩ exQueuedBuild
        ).buildStatusMetric.list = NewMetricsList.list ++ added ∧
      added.filter (typeIs "started") = [] ∧ added.filter (typeIs "finished") = []) ∧
    (∃ added, (collectEnvironment exProject exRelease emptyReleaseCallback exEnvironment
        ).releaseEnvironmentStatusMetric.list =
        emptyReleaseCallback.releaseEnvironmentStatusMetric.list ++ added ∧
      added.filter (typeIs "created") = []) ∧
    collectApproval exProject exRelease exEnvironment NewMetricsList exUndatedApproval
      = NewMetricsList ∧
    (∃ task, MetricsCollectorLatestBuild.Setup.Collect (clientOf [exBuild] [] []) [] exProject
        = (MetricsCollectorLatestBuild.Setup, [] ++ [task]) ∧
      ∀ r ∈ task.buildStatusMetric.list,
        typeIs "started" r = true ∨ typeIs "queued" r = true ∨ typeIs "finished" r = true →
          0 < r.value) :=
  ⟨(((C7_zero_time_not_emitted exProject).1 ⟨NewMetricsList, NewMetricsList⟩
        exQueuedBuild).imp fun _ h => ⟨h.1, h.2.1 rfl, h.2.2.2 rfl⟩),
    (((C7_zero_time_not_emitted exProject).2.1 exRelease emptyReleaseCallback
        exEnvironment).imp fun _ h => ⟨h.1, h.2 rfl⟩),
    (C7_zero_time_not_emitted exProject).2.2.1 exRelease exEnvironment NewMetricsList
      exUndatedApproval rfl,
    (C7_zero_time_not_emitted exProject).2.2.2.1 MetricsCollectorLatestBuild.Setup
      (clientOf [exBuild] [] []) [] ⟨[exBuild]⟩ rfl⟩

theorem filter_jobDuration_environmentStatusRows (project : Project) (release : Release)
    (environment : ReleaseEnvironment) :
    (environmentStatusRows project release environment).filter (typeIs "jobDuration") =
      if environment.TimeToDeploy = 0 then []
      else [⟨releaseEnvironmentStatusLabels project release environment "jobDuration",
        environment.TimeToDeploy * 60⟩] := by
  by_cases h : environment.TimeToDeploy = 0
  · simp [environmentStatusRows, List.filter_append, filter_typeIs_timeRows,
      filter_typeIs_notZeroRows, lookup_type_releaseEnvironmentStatusLabels, h, notZeroRows,
      typeIs]
  · simp [environmentStatusRows, List.filter_append, filter_typeIs_timeRows,
      filter_typeIs_notZeroRows, lookup_type_releaseEnvironmentStatusLabels, h, notZeroRows,
      typeIs]

/-- C8: one iteration of the release environment loop appends no jobDuration row to the
environment status list when TimeToDeploy = 0, and exactly one, with value
TimeToDeploy * 60, otherwise. In the task of a successful cycle the jobDuration rows of
the environment status list are exactly those of the environments with a non-zero
TimeToDeploy, in order, each with value TimeToDeploy * 60. -/
theorem C8_timeToDeploy_zero_skipped (project : Project) :
    (∀ (release : Release) (s : ReleaseCallback) (environment : ReleaseEnvironment),
      ∃ added, (collectEnvironment project release s environment
          ).releaseEnvironmentStatusMetric.list =
          s.releaseEnvironmentStatusMetric.list ++ added ∧
        (environment.TimeToDeploy = 0 → added.filter (typeIs "jobDuration") = []) ∧
        (environment.TimeToDeploy ≠ 0 → added.filter (typeIs "jobDuration") =
          [⟨releaseEnvironmentStatusLabels project release environment "jobDuration",
            environment.TimeToDeploy * 60⟩])) ∧
    (∀ (m : MetricsCollectorRelease) (client : Client) (opts : Opts) (now : Time)
      (callback : List ReleaseCallback) (list : ReleaseDefinitionList)
      (releaseList : ReleaseList),
      client.ListReleaseDefinitions project.Id = .ok list →
      client.ListReleaseHistory project.Id (now.Add (-opts.ReleaseHistoryDuration))
        = .ok releaseList →
      ∃ task, m.Collect client opts now callback project = (m, callback ++ [task]) ∧
        task.releaseEnvironmentStatusMetric.list.filter (typeIs "jobDuration") =
          releaseList.List.flatMap (fun release =>
            (release.Environments.filter (fun e => decide (e.TimeToDeploy ≠ 0))).map
              (fun e => ⟨releaseEnvironmentStatusLabels project release e "jobDuration",
                e.TimeToDeploy * 60⟩))) := by
  refine ⟨?_, ?_⟩
  · intro release s environment
    refine ⟨environmentStatusRows project release environment,
      collectEnvironment_status project release s environment, ?_, ?_⟩
    · intro h
      rw [filter_jobDuration_environmentStatusRows, if_pos h]
    · intro h
      rw [filter_jobDuration_environmentStatusRows, if_neg h]
  · intro m client opts now callback list releaseList h1 h2
    obtain ⟨task, hc, _, _, _, _, _, _, hst⟩ :=
      Collect_release_ok m client opts now callback project list releaseList h1 h2
    refine ⟨task, hc, ?_⟩
    rw [hst, filter_flatMap]
    congr 1
    funext release
    rw [filter_flatMap]
    induction release.Environments with
    | nil => rfl
    | cons e es ih =>
      rw [List.flatMap_cons, ih, filter_jobDuration_environmentStatusRows]
      by_cases h : e.TimeToDeploy = 0 <;> simp [h]

theorem C8_timeToDeploy_zero_skipped_witness :
    (∃ added, (collectEnvironment exProject exRelease emptyReleaseCallback exEnvironment
        ).releaseEnvironmentStatusMetric.list =
        emptyReleaseCallback.releaseEnvironmentStatusMetric.list ++ added ∧
      added.filter (typeIs "jobDuration") = []) ∧
    (∃ task, MetricsCollectorRelease.Setup.Collect (clientOf [] [exDefinition] [exRelease])
        exOpts exT0 [] exProject = (MetricsCollectorRelease.Setup, [] ++ [task]) ∧
      task.releaseEnvironmentStatusMetric.list.filter (typeIs "jobDuration") =
        [exRelease].flatMap (fun release =>
          (release.Environments.filter (fun e => decide (e.TimeToDeploy ≠ 0))).map
            (fun e => ⟨releaseEnvironmentStatusLabels exProject release e "jobDuration",
              e.TimeToDeploy * 60⟩))) :=
  ⟨((C8_timeToDeploy_zero_skipped exProject).1 exRelease emptyReleaseCallback
      exEnvironment).imp fun _ h => ⟨h.1, h.2.1 rfl⟩,
    (C8_timeToDeploy_zero_skipped exProject).2 MetricsCollectorRelease.Setup
      (clientOf [] [exDefinition] [exRelease]) exOpts exT0 [] ⟨[exDefinition]⟩ ⟨[exRelease]⟩
      rfl rfl⟩

theorem perm_buildInfoLabels (project : Project) (build : Build) :
    (labelNames (buildInfoLabels project build)).Perm buildLabelNames := by
  simp only [labelNames, buildInfoLabels, buildLabelNames, List.map]
  decide

theorem perm_buildStatusLabels (project : Project) (build : Build) (t : String) :
    (labelNames (buildStatusLabels project build t)).Perm buildStatusLabelNames := by
  simp only [labelNames, buildStatusLabels, buildStatusLabelNames, List.map]
  decide

theorem perm_releaseDefinitionLabels (project : Project) (d : ReleaseDefinition) :
    (labelNames (releaseDefinitionLabels project d)).Perm releaseDefinitionLabelNames := by
  simp only [labelNames, releaseDefinitionLabels, releaseDefinitionLabelNames, List.map]
  decide

theorem perm_releaseDefinitionEnvironmentLabels (project : Project) (d : ReleaseDefinition)
    (e : ReleaseDefinitionEnvironment) :
    (labelNames (releaseDefinitionEnvironmentLabels project d e)).Perm
      releaseDefinitionEnvironmentLabelNames := by
  simp only [labelNames, releaseDefinitionEnvironmentLabels,
    releaseDefinitionEnvironmentLabelNames, List.map]
  decide

theorem perm_releaseLabels (project : Project) (release : Release) :
    (labelNames (releaseLabels project release)).Perm releaseLabelNames := by
  simp only [labelNames, releaseLabels, releaseLabelNames, List.map]
  decide

theorem perm_releaseArtifactLabels (project : Project) (release : Release)
    (a : ReleaseArtifact) :
    (labelNames (releaseArtifactLabels project release a)).Perm releaseArtifactLabelNames := by
  simp only [labelNames, releaseArtifactLabels, releaseArtifactLabelNames, List.map]
  decide

theorem perm_releaseEnvironmentLabels (project : Project) (release : Release)
    (e : ReleaseEnvironment) :
    (labelNames (releaseEnvironmentLabels project release e)).Perm
      releaseEnvironmentLabelNames := by
  simp only [labelNames, releaseEnvironmentLabels, releaseEnvironmentLabelNames, List.map]
  decide

theorem perm_releaseEnvironmentStatusLabels (project : Project) (release : Release)
    (e : ReleaseEnvironment) (t : String) :
    (labelNames (releaseEnvironmentStatusLabels project release e t)).Perm
      releaseEnvironmentStatusLabelNames := by
  simp only [labelNames, releaseEnvironmentStatusLabels, releaseEnvironmentStatusLabelNames,
    List.map]
  decide

theorem perm_releaseApprovalLabels (project : Project) (release : Release)
    (e : ReleaseEnvironment) (a : ReleaseEnvironmentApproval) :
    (labelNames (releaseApprovalLabels project release e a)).Perm
      releaseEnvironmentApprovalLabelNames := by
  simp only [labelNames, releaseApprovalLabels, releaseEnvironmentApprovalLabelNames, List.map]
  decide

theorem labels_of_mem_timeRows (labels : Labels) (x : Time) (r : MetricRow)
    (h : r ∈ timeRows labels x) : r.labels = labels := by
  rw [(timeRows_pos labels x r h).1]

theorem labels_of_mem_notZeroRows (labels : Labels) (v : ℚ) (r : MetricRow)
    (h : r ∈ notZeroRows labels v) : r.labels = labels := by
  unfold notZeroRows at h
  by_cases h0 : v = 0
  · simp [h0] at h
  · rw [if_pos h0] at h
    rw [List.mem_singleton.mp h]

theorem buildStatusRows_labelNames (project : Project) (build : Build) (r : MetricRow)
    (hr : r ∈ buildStatusRows project build) :
    (labelNames r.labels).Perm buildStatusLabelNames := by
  unfold buildStatusRows at hr
  simp only [List.mem_append, List.mem_singleton] at hr
  rcases hr with ((hr | hr) | hr) | hr
  · rw [labels_of_mem_timeRows _ _ _ hr]
    exact perm_buildStatusLabels _ _ _
  · rw [labels_of_mem_timeRows _ _ _ hr]
    exact perm_buildStatusLabels _ _ _
  · rw [labels_of_mem_timeRows _ _ _ hr]
    exact perm_buildStatusLabels _ _ _
  · rw [hr]
    exact perm_buildStatusLabels _ _ _

theorem environmentStatusRows_labelNames (project : Project) (release : Release)
    (environment : ReleaseEnvironment) (r : MetricRow)
    (hr : r ∈ environmentStatusRows project release environment) :
    (labelNames r.labels).Perm releaseEnvironmentStatusLabelNames := by
  unfold environmentStatusRows at hr
  simp only [List.mem_append, List.mem_singleton] at hr
  rcases hr with (hr | hr) | hr
  · rw [hr]
    exact perm_releaseEnvironmentStatusLabels _ _ _ _
  · rw [labels_of_mem_timeRows _ _ _ hr]
    exact perm_releaseEnvironmentStatusLabels _ _ _ _
  · rw [labels_of_mem_notZeroRows _ _ _ hr]
    exact perm_releaseEnvironmentStatusLabels _ _ _ _

theorem lookup_isSome_of_mem (labels : Labels) (n : String) (h : n ∈ labelNames labels) :
    ∃ v, labels.lookup n = some v := by
  induction labels with
  | nil => simp [labelNames] at h
  | cons p ps ih =>
    obtain ⟨k, v⟩ := p
    by_cases hk : n = k
    · exact ⟨v, by simp [List.lookup, hk]⟩
    · have hm : n ∈ labelNames ps := by
        simp only [labelNames, List.map_cons, List.mem_cons] at h
        rcases h with h | h
        · exact absurd h hk
        · exact h
      obtain ⟨w, hw⟩ := ih hm
      refine ⟨w, ?_⟩
      have : (n == k) = false := by simpa using hk
      simp [List.lookup, this, hw]

theorem lookupAll_isSome (labels : Labels) (names : List String)
    (h : ∀ n ∈ names, n ∈ labelNames labels) : ∃ key, lookupAll labels names = some key := by
  induction names with
  | nil => exact ⟨[], rfl⟩
  | cons n ns ih =>
    obtain ⟨v, hv⟩ := lookup_isSome_of_mem labels n (h n (List.mem_cons_self _ _))
    obtain ⟨vs, hvs⟩ := ih (fun x hx => h x (List.mem_cons_of_mem _ hx))
    exact ⟨v :: vs, by simp [lookupAll, hv, hvs]⟩

theorem labelValues_isSome (g : GaugeVec) (labels : Labels)
    (h : (labelNames labels).Perm g.variableLabels) :
    ∃ key, g.labelValues labels = some key := by
  have hlen : labels.length = g.variableLabels.length := by
    have := h.length_eq
    simpa [labelNames] using this
  obtain ⟨key, hk⟩ := lookupAll_isSome labels g.variableLabels (fun n hn => h.mem_iff.mpr hn)
  exact ⟨key, by simp [GaugeVec.labelValues, hlen, hk]⟩

theorem GaugeSet_isSome (rows : List MetricRow) (g : GaugeVec)
    (h : ∀ r ∈ rows, (labelNames r.labels).Perm g.variableLabels) :
    ∃ g2, MetricList.GaugeSet ⟨rows⟩ g = some g2 ∧ g2.variableLabels = g.variableLabels ∧
      g2.name = g.name := by
  induction rows generalizing g with
  | nil => exact ⟨g, rfl, rfl, rfl⟩
  | cons r rs ih =>
    obtain ⟨key, hk⟩ := labelValues_isSome g r.labels (h r (List.mem_cons_self _ _))
    have hstep : g.WithSet r.labels r.value =
        some { g with metrics := setSeries key r.value g.metrics } := by
      simp [GaugeVec.WithSet, hk]
    obtain ⟨g2, h2, h3, h4⟩ := ih { g with metrics := setSeries key r.value g.metrics }
      (fun x hx => h x (List.mem_cons_of_mem _ hx))
    refine ⟨g2, ?_, h3, h4⟩
    simp only [MetricList.GaugeSet] at h2 ⊢
    simp [List.foldlM_cons, hstep, h2]

theorem GaugeSet_of_hasLabelNames (m : MetricList) (g : GaugeVec) (names : List String)
    (h : m.hasLabelNames names) (hg : g.variableLabels = names) :
    ∃ g2, m.GaugeSet g = some g2 := by
  obtain ⟨g2, h2, _, _⟩ := GaugeSet_isSome m.list g (fun r hr => hg ▸ h r hr)
  exact ⟨g2, h2⟩

theorem build_task_labelNames (m : MetricsCollectorLatestBuild) (client : Client)
    (callback : List BuildCallback) (project : Project) (list : BuildList)
    (h : client.ListLatestBuilds project.Id = .ok list) :
    ∃ task, m.Collect client callback project = (m, callback ++ [task]) ∧
      task.buildMetric.hasLabelNames buildLabelNames ∧
      task.buildStatusMetric.hasLabelNames buildStatusLabelNames := by
  obtain ⟨task, hc, hb, hs⟩ := Collect_build_ok m client callback project list h
  refine ⟨task, hc, ?_, ?_⟩
  · intro r hr
    rw [hb] at hr
    obtain ⟨b, _, rfl⟩ := List.mem_map.mp hr
    exact perm_buildInfoLabels project b
  · intro r hr
    rw [hs] at hr
    obtain ⟨b, _, hrb⟩ := List.mem_flatMap.mp hr
    exact buildStatusRows_labelNames project b r hrb

theorem release_task_labelNames (m : MetricsCollectorRelease) (client : Client) (opts : Opts)
    (now : Time) (callback : List ReleaseCallback) (project : Project)
    (list : ReleaseDefinitionList) (releaseList : ReleaseList)
    (h1 : client.ListReleaseDefinitions project.Id = .ok list)
    (h2 : client.ListReleaseHistory project.Id (now.Add (-opts.ReleaseHistoryDuration))
      = .ok releaseList) :
    ∃ task, m.Collect client opts now callback project = (m, callback ++ [task]) ∧
      task.releaseMetric.hasLabelNames releaseLabelNames ∧
      task.releaseArtifactMetric.hasLabelNames releaseArtifactLabelNames ∧
      task.releaseEnvironmentMetric.hasLabelNames releaseEnvironmentLabelNames ∧
      task.releaseEnvironmentApprovalMetric.hasLabelNames releaseEnvironmentApprovalLabelNames ∧
      task.releaseEnvironmentStatusMetric.hasLabelNames releaseEnvironmentStatusLabelNames ∧
      task.releaseDefinitionMetric.hasLabelNames releaseDefinitionLabelNames ∧
      task.releaseDefinitionEnvironmentMetric.hasLabelNames
        releaseDefinitionEnvironmentLabelNames := by
  obtain ⟨task, hc, hd, hde, hr, hart, henv, happ, hst⟩ :=
    Collect_release_ok m client opts now callback project list releaseList h1 h2
  refine ⟨task, hc, ?_, ?_, ?_, ?_, ?_, ?_, ?_⟩
  · intro r hx
    rw [hr] at hx
    obtain ⟨x, _, rfl⟩ := List.mem_map.mp hx
    exact perm_releaseLabels project x
  · intro r hx
    rw [hart] at hx
    obtain ⟨rel, _, hx2⟩ := List.mem_flatMap.mp hx
    obtain ⟨a, _, rfl⟩ := List.mem_map.mp hx2
    exact perm_releaseArtifactLabels project rel a
  · intro r hx
    rw [henv] at hx
    obtain ⟨rel, _, hx2⟩ := List.mem_flatMap.mp hx
    obtain ⟨e, _, rfl⟩ := List.mem_map.mp hx2
    exact perm_releaseEnvironmentLabels project rel e
  · intro r hx
    rw [happ] at hx
    obtain ⟨rel, _, hx2⟩ := List.mem_flatMap.mp hx
    obtain ⟨e, _, hx3⟩ := List.mem_flatMap.mp hx2
    obtain ⟨a, _, hx4⟩ := mem_environmentApprovalRows _ _ _ _ hx3
    rw [(mem_approvalRows _ _ _ _ _ hx4).2.1]
    exact perm_releaseApprovalLabels project rel e a
  · intro r hx
    rw [hst] at hx
    obtain ⟨rel, _, hx2⟩ := List.mem_flatMap.mp hx
    obtain ⟨e, _, hx3⟩ := List.mem_flatMap.mp hx2
    exact environmentStatusRows_labelNames project rel e r hx3
  · intro r hx
    rw [hd] at hx
    obtain ⟨d, _, rfl⟩ := List.mem_map.mp hx
    exact perm_releaseDefinitionLabels project d
  · intro r hx
    rw [hde] at hx
    obtain ⟨d, _, hx2⟩ := List.mem_flatMap.mp hx
    obtain ⟨e, _, rfl⟩ := List.mem_map.mp hx2
    exact perm_releaseDefinitionEnvironmentLabels project d e

/-- C10: in the task of every successful cycle, every row buffered for one of the nine
families has exactly the label names the family is created with in Setup (as a set, with
no name twice), and therefore the commit task runs to completion on every collector that
holds the families of Setup: no `With` fails on a missing or unknown label. -/
theorem C10_label_names_match_schema (project : Project) :
    (∀ (m : MetricsCollectorLatestBuild) (client : Client) (callback : List BuildCallback)
      (list : BuildList), client.ListLatestBuilds project.Id = .ok list →
      ∃ task, m.Collect client callback project = (m, callback ++ [task]) ∧
        task.buildMetric.hasLabelNames
          MetricsCollectorLatestBuild.Setup.prometheus.build.variableLabels ∧
        task.buildStatusMetric.hasLabelNames
          MetricsCollectorLatestBuild.Setup.prometheus.buildStatus.variableLabels ∧
        ∀ reg : MetricsCollectorLatestBuild,
          reg.prometheus.schema = MetricsCollectorLatestBuild.Setup.prometheus.schema →
            ∃ reg2, task.run reg = some reg2) ∧
    (∀ (m : MetricsCollectorRelease) (client : Client) (opts : Opts) (now : Time)
      (callback : List ReleaseCallback) (list : ReleaseDefinitionList)
      (releaseList : ReleaseList),
      client.ListReleaseDefinitions project.Id = .ok list →
      client.ListReleaseHistory project.Id (now.Add (-opts.ReleaseHistoryDuration))
        = .ok releaseList →
      ∃ task, m.Collect client opts now callback project = (m, callback ++ [task]) ∧
        task.releaseMetric.hasLabelNames
          MetricsCollectorRelease.Setup.prometheus.release.variableLabels ∧
        task.releaseArtifactMetric.hasLabelNames
          MetricsCollectorRelease.Setup.prometheus.releaseArtifact.variableLabels ∧
        task.releaseEnvironmentMetric.hasLabelNames
          MetricsCollectorRelease.Setup.prometheus.releaseEnvironment.variableLabels ∧
        task.releaseEnvironmentApprovalMetric.hasLabelNames
          MetricsCollectorRelease.Setup.prometheus.releaseEnvironmentApproval.variableLabels ∧
        task.releaseEnvironmentStatusMetric.hasLabelNames
          MetricsCollectorRelease.Setup.prometheus.releaseEnvironmentStatus.variableLabels ∧
        task.releaseDefinitionMetric.hasLabelNames
          MetricsCollectorRelease.Setup.prometheus.releaseDefinition.variableLabels ∧
        task.releaseDefinitionEnvironmentMetric.hasLabelNames
          MetricsCollectorRelease.Setup.prometheus.releaseDefinitionEnvironment.variableLabels ∧
        ∀ reg : MetricsCollectorRelease,
          reg.prometheus.schema = MetricsCollectorRelease.Setup.prometheus.schema →
            ∃ reg2, task.run reg = some reg2) := by
  constructor
  · intro m client callback list h
    obtain ⟨task, hc, hb, hs⟩ := build_task_labelNames m client callback project list h
    refine ⟨task, hc, hb, hs, ?_⟩
    intro reg hreg
    simp only [BuildGauges.schema, MetricsCollectorLatestBuild.Setup, NewGaugeVec,
      List.cons.injEq, and_true] at hreg
    obtain ⟨g1, e1⟩ := GaugeSet_of_hasLabelNames _ reg.prometheus.build _ hb hreg.1
    obtain ⟨g2, e2⟩ := GaugeSet_of_hasLabelNames _ reg.prometheus.buildStatus _ hs hreg.2
    exact ⟨⟨⟨g1, g2⟩⟩, by simp [BuildCallback.run, e1, e2]⟩
  · intro m client opts now callback list releaseList h1 h2
    obtain ⟨task, hc, hr, hart, henv, happ, hst, hd, hde⟩ :=
      release_task_labelNames m client opts now callback project list releaseList h1 h2
    refine ⟨task, hc, hr, hart, henv, happ, hst, hd, hde, ?_⟩
    intro reg hreg
    simp only [ReleaseGauges.schema, MetricsCollectorRelease.Setup, NewGaugeVec,
      List.cons.injEq, and_true] at hreg
    obtain ⟨q1, q2, q3, q4, q5, q6, q7⟩ := hreg
    obtain ⟨g1, e1⟩ := GaugeSet_of_hasLabelNames _ reg.prometheus.release _ hr q1
    obtain ⟨g2, e2⟩ := GaugeSet_of_hasLabelNames _ reg.prometheus.releaseArtifact _ hart q2
    obtain ⟨g3, e3⟩ := GaugeSet_of_hasLabelNames _ reg.prometheus.releaseEnvironment _ henv q3
    obtain ⟨g4, e4⟩ :=
      GaugeSet_of_hasLabelNames _ reg.prometheus.releaseEnvironmentApproval _ happ q4
    obtain ⟨g5, e5⟩ :=
      GaugeSet_of_hasLabelNames _ reg.prometheus.releaseEnvironmentStatus _ hst q5
    obtain ⟨g6, e6⟩ := GaugeSet_of_hasLabelNames _ reg.prometheus.releaseDefinition _ hd q6
    obtain ⟨g7, e7⟩ :=
      GaugeSet_of_hasLabelNames _ reg.prometheus.releaseDefinitionEnvironment _ hde q7
    exact ⟨⟨⟨g1, g2, g3, g4, g5, g6, g7⟩⟩,
      by simp [ReleaseCallback.run, e1, e2, e3, e4, e5, e6, e7]⟩

theorem C10_label_names_match_schema_witness :
    (∃ task, MetricsCollectorLatestBuild.Setup.Collect (clientOf [exBuild] [] []) [] exProject
        = (MetricsCollectorLatestBuild.Setup, [] ++ [task]) ∧
      ∃ reg2, task.run MetricsCollectorLatestBuild.Setup = some reg2) ∧
    (∃ task, MetricsCollectorRelease.Setup.Collect (clientOf [] [exDefinition] [exRelease])
        exOpts exT0 [] exProject = (MetricsCollectorRelease.Setup, [] ++ [task]) ∧
      ∃ reg2, task.run MetricsCollectorRelease.Setup = some reg2) :=
  ⟨((C10_label_names_match_schema exProject).1 MetricsCollectorLatestBuild.Setup
      (clientOf [exBuild] [] []) [] ⟨[exBuild]⟩ rfl).imp
      fun _ h => ⟨h.1, h.2.2.2 MetricsCollectorLatestBuild.Setup rfl⟩,
    ((C10_label_names_match_schema exProject).2 MetricsCollectorRelease.Setup
      (clientOf [] [exDefinition] [exRelease]) exOpts exT0 [] ⟨[exDefinition]⟩ ⟨[exRelease]⟩
      rfl rfl).imp
      fun _ h => ⟨h.1, h.2.2.2.2.2.2.2.2 MetricsCollectorRelease.Setup rfl⟩⟩

theorem digitChar_inj : ∀ a < 10, ∀ b < 10, Nat.digitChar a = Nat.digitChar b → a = b := by
  decide

theorem digitChar_ne_minus : ∀ a < 10, Nat.digitChar a ≠ '-' := by
  decide

theorem map_digitChar_inj (l1 l2 : List Nat) (h1 : ∀ d ∈ l1, d < 10) (h2 : ∀ d ∈ l2, d < 10)
    (h : l1.map Nat.digitChar = l2.map Nat.digitChar) : l1 = l2 := by
  induction l1 generalizing l2 with
  | nil =>
    cases l2 with
    | nil => rfl
    | cons b bs => simp at h
  | cons a as ih =>
    cases l2 with
    | nil => simp at h
    | cons b bs =>
      simp only [List.map_cons, List.cons.injEq] at h
      have hab := digitChar_inj a (h1 a (List.mem_cons_self _ _)) b
        (h2 b (List.mem_cons_self _ _)) h.1
      have := ih bs (fun d hd => h1 d (List.mem_cons_of_mem _ hd))
        (fun d hd => h2 d (List.mem_cons_of_mem _ hd)) h.2
      rw [hab, this]

/-- The characters of the decimal rendering of a natural number. -/
theorem natToString_data (n : Nat) :
    (natToString n).data =
      if n = 0 then ['0'] else (Nat.digits 10 n).reverse.map Nat.digitChar := by
  unfold natToString
  by_cases h : n = 0 <;> simp [h]

theorem natToString_data_digits (n : Nat) :
    ∃ l : List Nat, (∀ d ∈ l, d < 10) ∧ l ≠ [] ∧ (natToString n).data = l.map Nat.digitChar ∧
      (l = [0] ↔ n = 0) ∧ (n ≠ 0 → l = (Nat.digits 10 n).reverse) := by
  by_cases h : n = 0
  · refine ⟨[0], by simp, by simp, ?_, by simp [h], fun h2 => absurd h h2⟩
    rw [natToString_data, if_pos h]
    rfl
  · refine ⟨(Nat.digits 10 n).reverse, ?_, ?_, ?_, ?_, fun _ => rfl⟩
    · intro d hd
      exact Nat.digits_lt_base (by norm_num) (List.mem_reverse.mp hd)
    · intro hnil
      have h0 : Nat.digits 10 n = [] := by simpa using hnil
      exact h (Nat.digits_eq_nil_iff_eq_zero.mp h0)
    · rw [natToString_data, if_neg h]
    · constructor
      · intro hl
        have h0 : Nat.digits 10 n = [0] := by
          have := congrArg List.reverse hl
          simpa using this
        have := Nat.ofDigits_digits 10 n
        rw [h0] at this
        simpa using this.symm
      · intro h2
        exact absurd h2 h

theorem natToString_injective (n m : Nat) (h : natToString n = natToString m) : n = m := by
  obtain ⟨l1, hl1, _, hd1, hz1, hr1⟩ := natToString_data_digits n
  obtain ⟨l2, hl2, _, hd2, hz2, hr2⟩ := natToString_data_digits m
  have hl : l1 = l2 := by
    apply map_digitChar_inj l1 l2 hl1 hl2
    rw [← hd1, ← hd2, h]
  by_cases hn : n = 0
  · have : l2 = [0] := by rw [← hl]; exact hz1.mpr hn
    rw [hn, hz2.mp this]
  · by_cases hm : m = 0
    · have : l1 = [0] := by rw [hl]; exact hz2.mpr hm
      exact absurd (hz1.mp this) hn
    · have h1 := hr1 hn
      have h2 := hr2 hm
      rw [hl, h2] at h1
      have := List.reverse_injective h1
      exact (Nat.digits_inj_iff.mp this).symm

theorem int64ToString_injective (v w : Int) (h : int64ToString v = int64ToString w) : v = w := by
  unfold int64ToString at h
  have hdata := congrArg String.data h
  obtain ⟨l1, hl1, hne1, hd1, _, _⟩ := natToString_data_digits (-v).toNat
  obtain ⟨l2, hl2, hne2, hd2, _, _⟩ := natToString_data_digits w.toNat
  obtain ⟨l3, hl3, hne3, hd3, _, _⟩ := natToString_data_digits v.toNat
  obtain ⟨l4, hl4, hne4, hd4, _, _⟩ := natToString_data_digits (-w).toNat
  by_cases hv : v < 0 <;> by_cases hw : w < 0
  · simp only [hv, hw, if_true, String.data_append] at hdata
    have h2 : natToString (-v).toNat = natToString (-w).toNat := by
      have := List.append_cancel_left hdata
      exact String.ext this
    have := natToString_injective _ _ h2
    omega
  · exfalso
    simp only [hv, hw, if_true, if_false, String.data_append] at hdata
    rw [hd2] at hdata
    cases l2 with
    | nil => exact hne2 rfl
    | cons d ds =>
      simp only [List.map_cons] at hdata
      have hhead : '-' = Nat.digitChar d := by
        have := congrArg List.head? hdata
        simpa using this
      exact digitChar_ne_minus d (hl2 d (List.mem_cons_self _ _)) hhead.symm
  · exfalso
    simp only [hv, hw, if_true, if_false, String.data_append] at hdata
    rw [hd3] at hdata
    cases l3 with
    | nil => exact hne3 rfl
    | cons d ds =>
      simp only [List.map_cons] at hdata
      have hhead : Nat.digitChar d = '-' := by
        have := congrArg List.head? hdata
        simpa using this
      exact digitChar_ne_minus d (hl3 d (List.mem_cons_self _ _)) hhead
  · simp only [hv, hw, if_false] at h
    have := natToString_injective _ _ h
    omega

theorem mem_keys_setSeries (key : List String) (v : ℚ) (ms : List (List String × ℚ))
    (k : List String) :
    k ∈ (setSeries key v ms).map Prod.fst ↔ k = key ∨ k ∈ ms.map Prod.fst := by
  induction ms with
  | nil => simp [setSeries]
  | cons p ps ih =>
    obtain ⟨k2, w⟩ := p
    by_cases h : k2 = key
    · simp only [setSeries, h, if_true, List.map_cons, List.mem_cons]
      tauto
    · simp only [setSeries, h, if_false, List.map_cons, List.mem_cons, ih]
      tauto

theorem labelValues_congr (g g2 : GaugeVec) (h : g2.variableLabels = g.variableLabels)
    (labels : Labels) : g2.labelValues labels = g.labelValues labels := by
  simp [GaugeVec.labelValues, h]

theorem GaugeSet_keys (rows : List MetricRow) (g g2 : GaugeVec)
    (h : MetricList.GaugeSet ⟨rows⟩ g = some g2) :
    g2.variableLabels = g.variableLabels ∧
    ∀ k, k ∈ g2.keys ↔ k ∈ g.keys ∨ ∃ r ∈ rows, g.labelValues r.labels = some k := by
  induction rows generalizing g with
  | nil =>
    have : g = g2 := by simpa [MetricList.GaugeSet] using h
    subst this
    exact ⟨rfl, fun k => by simp⟩
  | cons r rs ih =>
    simp only [MetricList.GaugeSet, List.foldlM_cons] at h
    cases hk : g.labelValues r.labels with
    | none => simp [GaugeVec.WithSet, hk] at h
    | some key =>
      have hstep : g.WithSet r.labels r.value =
          some { g with metrics := setSeries key r.value g.metrics } := by
        simp [GaugeVec.WithSet, hk]
      rw [hstep] at h
      have h2 : MetricList.GaugeSet ⟨rs⟩ { g with metrics := setSeries key r.value g.metrics }
          = some g2 := by
        simpa [MetricList.GaugeSet] using h
      obtain ⟨hv, hkeys⟩ := ih _ h2
      refine ⟨hv, ?_⟩
      intro k
      rw [hkeys k]
      simp only [GaugeVec.keys, mem_keys_setSeries, List.mem_cons, exists_eq_or_imp]
      have hc : ∀ l, GaugeVec.labelValues { g with metrics := setSeries key r.value g.metrics } l
          = g.labelValues l := fun l => labelValues_congr _ _ rfl l
      simp only [hc, hk, Option.some.injEq]
      constructor
      · rintro ((h1 | h1) | h1)
        · exact Or.inr (Or.inl h1.symm)
        · exact Or.inl h1
        · exact Or.inr (Or.inr h1)
      · rintro (h1 | h1 | h1)
        · exact Or.inl (Or.inr h1)
        · exact Or.inl (Or.inl h1.symm)
        · exact Or.inr h1

theorem labelValues_buildInfoLabels (g : GaugeVec) (hg : g.variableLabels = buildLabelNames)
    (project : Project) (b : Build) :
    g.labelValues (buildInfoLabels project b) =
      some [project.Id, project.Name, int64ToString b.Definition.Id, int64ToString b.Id,
        int64ToString b.Queue.Pool.Id, b.RequestedBy.DisplayName, b.BuildNumber,
        b.Definition.Name, b.SourceBranch, b.SourceVersion, b.Status, b.Reason, b.Result,
        b.Links.Web.Href] := by
  simp [GaugeVec.labelValues, hg, buildLabelNames, buildInfoLabels, lookupAll, List.lookup]

theorem labelOf_buildID (g : GaugeVec) (hg : g.variableLabels = buildLabelNames)
    (project : Project) (b : Build) (key : List String)
    (h : g.labelValues (buildInfoLabels project b) = some key) :
    g.labelOf key "buildID" = some (int64ToString b.Id) := by
  rw [labelValues_buildInfoLabels g hg] at h
  have : key = _ := (Option.some.inj h).symm
  rw [this]
  simp [GaugeVec.labelOf, hg, buildLabelNames, List.lookup]

theorem cycle_build_ok (m : MetricsCollectorLatestBuild) (client : Client) (project : Project)
    (list : BuildList)
    (hm : m.prometheus.schema = MetricsCollectorLatestBuild.Setup.prometheus.schema)
    (h : client.ListLatestBuilds project.Id = .ok list) :
    ∃ m1, m.cycle client project = some m1 ∧
      m1.prometheus.schema = MetricsCollectorLatestBuild.Setup.prometheus.schema ∧
      m1.prometheus.build.variableLabels = buildLabelNames ∧
      ∀ k, k ∈ m1.prometheus.build.keys ↔
        ∃ b ∈ list.List, m1.prometheus.build.labelValues (buildInfoLabels project b) = some k := by
  obtain ⟨task, hc, hb, hs⟩ := build_task_labelNames m client [] project list h
  have htask : (m.Collect client [] project) = (m, [task]) := by simpa using hc
  simp only [BuildGauges.schema, MetricsCollectorLatestBuild.Setup, NewGaugeVec,
    List.cons.injEq, and_true] at hm
  obtain ⟨g1, e1, v1, _⟩ := GaugeSet_isSome task.buildMetric.list m.Reset.prometheus.build
    (fun r hr => by
      have : m.Reset.prometheus.build.variableLabels = buildLabelNames := hm.1
      rw [this]
      exact hb r hr)
  obtain ⟨g2, e2, v2, _⟩ := GaugeSet_isSome task.buildStatusMetric.list
    m.Reset.prometheus.buildStatus
    (fun r hr => by
      have : m.Reset.prometheus.buildStatus.variableLabels = buildStatusLabelNames := hm.2
      rw [this]
      exact hs r hr)
  have hv1 : g1.variableLabels = buildLabelNames := by rw [v1]; exact hm.1
  have hv2 : g2.variableLabels = buildStatusLabelNames := by rw [v2]; exact hm.2
  refine ⟨⟨⟨g1, g2⟩⟩, ?_, ?_, hv1, ?_⟩
  · unfold MetricsCollectorLatestBuild.cycle
    rw [htask]
    simp only [List.foldlM_cons, List.foldlM_nil, MetricsCollectorLatestBuild.commit,
      BuildCallback.run]
    have e1b : task.buildMetric.GaugeSet m.Reset.prometheus.build = some g1 := e1
    have e2b : task.buildStatusMetric.GaugeSet m.Reset.prometheus.buildStatus = some g2 := e2
    simp [e1b, e2b]
  · simp [BuildGauges.schema, MetricsCollectorLatestBuild.Setup, NewGaugeVec, hv1, hv2]
  · intro k
    obtain ⟨_, hkeys⟩ := GaugeSet_keys task.buildMetric.list m.Reset.prometheus.build g1 e1
    have hreset : m.Reset.prometheus.build.keys = [] := rfl
    show k ∈ g1.keys ↔ ∃ b ∈ list.List, g1.labelValues (buildInfoLabels project b) = some k
    rw [hkeys k, hreset]
    have hinfo3 : task.buildMetric.list =
        list.List.map (fun b => ⟨buildInfoLabels project b, 1⟩) := by
      have h3 := Collect_build_ok m client [] project list h
      obtain ⟨t2, hc2, hb2, _⟩ := h3
      have : t2 = task := by
        rw [htask] at hc2
        simpa using hc2.symm
      rw [← this]
      exact hb2
    rw [hinfo3]
    simp only [List.not_mem_nil, false_or, List.mem_map, exists_exists_and_eq_and]
    constructor
    · rintro ⟨b, hb1, hb2⟩
      exact ⟨b, hb1, by rw [labelValues_congr _ g1 v1]; exact hb2⟩
    · rintro ⟨b, hb1, hb2⟩
      exact ⟨b, hb1, by rw [← labelValues_congr _ g1 v1]; exact hb2⟩

/-- C1: two consecutive successful cycles of the build collector for one project, each
committed as Reset followed by its commit task. A build fetched in cycle N has an info
series after cycle N; if no build fetched in cycle N+1 has its Id, then after cycle N+1 no
series of the build-info family carries its buildID. After cycle N+1 the series of the
family are exactly those of the builds fetched in cycle N+1: every other series is gone. -/
theorem C1_absent_build_has_no_series (m0 : MetricsCollectorLatestBuild)
    (clientN clientN1 : Client) (project : Project) (listN listN1 : BuildList) (b : Build)
    (hm : m0.prometheus.schema = MetricsCollectorLatestBuild.Setup.prometheus.schema)
    (hN : clientN.ListLatestBuilds project.Id = .ok listN)
    (hN1 : clientN1.ListLatestBuilds project.Id = .ok listN1)
    (hb : b ∈ listN.List) (habsent : ∀ b2 ∈ listN1.List, b2.Id ≠ b.Id) :
    ∃ m1 m2, m0.cycle clientN project = some m1 ∧ m1.cycle clientN1 project = some m2 ∧
      (∃ k ∈ m1.prometheus.build.keys,
        m1.prometheus.build.labelOf k "buildID" = some (int64ToString b.Id)) ∧
      (∀ k ∈ m2.prometheus.build.keys,
        m2.prometheus.build.labelOf k "buildID" ≠ some (int64ToString b.Id)) ∧
      (∀ k, k ∈ m2.prometheus.build.keys ↔
        ∃ b2 ∈ listN1.List,
          m2.prometheus.build.labelValues (buildInfoLabels project b2) = some k) := by
  obtain ⟨m1, hc1, hs1, hv1, hk1⟩ := cycle_build_ok m0 clientN project listN hm hN
  obtain ⟨m2, hc2, _, hv2, hk2⟩ := cycle_build_ok m1 clientN1 project listN1 hs1 hN1
  refine ⟨m1, m2, hc1, hc2, ?_, ?_, hk2⟩
  · have hval := labelValues_buildInfoLabels m1.prometheus.build hv1 project b
    exact ⟨_, (hk1 _).mpr ⟨b, hb, hval⟩, labelOf_buildID _ hv1 project b _ hval⟩
  · intro k hk hlabel
    obtain ⟨b2, hb2, hval⟩ := (hk2 k).mp hk
    have := labelOf_buildID _ hv2 project b2 k hval
    rw [this] at hlabel
    exact habsent b2 hb2 (int64ToString_injective _ _ (Option.some.inj hlabel))

theorem C1_absent_build_has_no_series_witness :
    ∃ m1 m2,
      MetricsCollectorLatestBuild.Setup.cycle (clientOf [exBuild, exRunningBuild] [] [])
        exProject = some m1 ∧
      m1.cycle (clientOf [exRunningBuild] [] []) exProject = some m2 ∧
      (∃ k ∈ m1.prometheus.build.keys,
        m1.prometheus.build.labelOf k "buildID" = some (int64ToString exBuild.Id)) ∧
      (∀ k ∈ m2.prometheus.build.keys,
        m2.prometheus.build.labelOf k "buildID" ≠ some (int64ToString exBuild.Id)) ∧
      (∀ k, k ∈ m2.prometheus.build.keys ↔
        ∃ b2 ∈ [exRunningBuild],
          m2.prometheus.build.labelValues (buildInfoLabels exProject b2) = some k) :=
  C1_absent_build_has_no_series MetricsCollectorLatestBuild.Setup
    (clientOf [exBuild, exRunningBuild] [] []) (clientOf [exRunningBuild] [] []) exProject
    ⟨[exBuild, exRunningBuild]⟩ ⟨[exRunningBuild]⟩ exBuild rfl rfl rfl
    (List.mem_cons_self _ _) (by decide)

/-- The commit task on its own deletes nothing: every series the family held before
`GaugeSet` is still there afterwards. -/
theorem GaugeSet_keeps_series (rows : List MetricRow) (g g2 : GaugeVec)
    (h : MetricList.GaugeSet ⟨rows⟩ g = some g2) : ∀ k ∈ g.keys, k ∈ g2.keys :=
  fun k hk => ((GaugeSet_keys rows g g2 h).2 k).mpr (Or.inl hk)

end AzureDevopsExporter
